import Mathlib

/-
Verification of the CounterCart donation pipeline against its specification.

The Python backend is shallowly embedded: `Decimal` values are modelled as
exact rationals (ℚ), database tables as Lean lists of records, and fallible
or stateful operations as explicit state-passing functions.  Each definition
mirrors one function of `src/backend/app`.
-/

namespace CounterCart

/-! ## Decimal arithmetic helpers

Python's `int(x)` truncates a `Decimal` toward zero; `Decimal.quantize`
with exponent `0.01` and the default context rounds half to even;
`ROUND_HALF_UP` rounds ties away from zero. -/

/-- Truncation toward zero, as Python's `int()` on a `Decimal`. -/
def pyIntQ (x : ℚ) : ℤ :=
  if 0 ≤ x then ⌊x⌋ else ⌈x⌉

/-- Round a rational to the nearest integer, ties to the even integer
(the default rounding of Python's `Decimal.quantize`). -/
def roundHalfEvenZ (x : ℚ) : ℤ :=
  let n := ⌊x⌋
  let r := x - (n : ℚ)
  if r < 1/2 then n
  else if 1/2 < r then n + 1
  else if Even n then n else n + 1

/-- Round a rational to the nearest integer, ties away from zero
(Python's `ROUND_HALF_UP`). -/
def roundHalfUpZ (x : ℚ) : ℤ :=
  if 0 ≤ x then ⌊x + 1/2⌋ else ⌈x - 1/2⌉

/-- Quantization to two decimal places with the default (half-even)
rounding, as `value.quantize(Decimal("0.01"))`. -/
def quantizeCents (x : ℚ) : ℚ :=
  (roundHalfEvenZ (x * 100) : ℚ) / 100

/-! ## Matching service: donation amount

Embeds `calculate_donation_amount` from
`src/backend/app/services/matching_service.py`. -/

/-- Embeds `calculate_donation_amount(transaction_amount, multiplier)`:
`rounded_up = Decimal(str(int(transaction_amount) + 1))`, the difference to
the amount is the base unless it is zero (then a flat 1.00), and the product
with the multiplier is quantized to two decimals. -/
def calculate_donation_amount (transaction_amount multiplier : ℚ) : ℚ :=
  let rounded_up : ℚ := ((pyIntQ transaction_amount + 1 : ℤ) : ℚ)
  let round_up_amount := rounded_up - transaction_amount
  let base_amount := if round_up_amount = 0 then 1 else round_up_amount
  quantizeCents (base_amount * multiplier)

/-- Modelled from the spec: the round-up rule as the specification words it,
with `f = ceil(amount) - amount`, a flat 1.00 base when `f = 0`, and
round-half-up of the product to two decimals. -/
def spec_roundup_half_up (a m : ℚ) : ℚ :=
  let f : ℚ := ((⌈a⌉ : ℤ) : ℚ) - a
  let base := if f = 0 then 1 else f
  (roundHalfUpZ (base * m * 100) : ℚ) / 100

/-- The round-up rule with the ceiling base of the spec but the half-even
rounding that `Decimal.quantize` actually performs. -/
def spec_roundup_half_even (a m : ℚ) : ℚ :=
  let f : ℚ := ((⌈a⌉ : ℤ) : ℚ) - a
  let base := if f = 0 then 1 else f
  (roundHalfEvenZ (base * m * 100) : ℚ) / 100

end CounterCart

namespace CounterCart

lemma pyIntQ_of_pos {a : ℚ} (ha : 0 < a) : pyIntQ a = ⌊a⌋ := by
  simp [pyIntQ, ha.le]

lemma quantizeCents_eq (x : ℚ) :
    quantizeCents x = (roundHalfEvenZ (x * 100) : ℚ) / 100 := rfl

/-- The code's base (floor plus one minus the amount, with the zero case
replaced by one) agrees with the spec's base (ceiling minus the amount, with
the zero case replaced by one). -/
lemma base_eq (a : ℚ) :
    (if ((⌊a⌋ + 1 : ℤ) : ℚ) - a = 0 then (1 : ℚ) else ((⌊a⌋ + 1 : ℤ) : ℚ) - a)
      = (if ((⌈a⌉ : ℤ) : ℚ) - a = 0 then (1 : ℚ) else ((⌈a⌉ : ℤ) : ℚ) - a) := by
  by_cases h : (⌊a⌋ : ℚ) = a
  · have hceil : (⌈a⌉ : ℤ) = ⌊a⌋ := by
      conv_lhs => rw [← h]
      exact Int.ceil_intCast ⌊a⌋
    have h1 : ((⌊a⌋ + 1 : ℤ) : ℚ) - a = 1 := by
      push_cast
      rw [h]; ring
    have h2 : ((⌈a⌉ : ℤ) : ℚ) - a = 0 := by
      rw [hceil, h]; ring
    rw [h1, h2]
    norm_num
  · have hne : Int.fract a ≠ 0 := by
      intro hz
      apply h
      have h0 := Int.floor_add_fract a
      rw [hz, add_zero] at h0
      exact h0
    have hval : ((⌈a⌉ : ℤ) : ℚ) = ((⌊a⌋ + 1 : ℤ) : ℚ) := by
      rw [Int.ceil_eq_add_one_sub_fract hne, Int.fract]
      push_cast
      ring
    rw [hval]

/-- C1, counterexample: at amount 4.63 and multiplier 0.5 the code quantizes
0.185 half-to-even down to 0.18, while the spec's round-half-up rule gives
0.19, so the claimed equality with the round-half-up rule fails. -/
theorem calculate_donation_amount_not_half_up :
    calculate_donation_amount (463/100) (1/2) = 18/100 ∧
      spec_roundup_half_up (463/100) (1/2) = 19/100 := by
  have hc : (⌈(463/100 : ℚ)⌉ : ℤ) = 5 := by
    rw [Int.ceil_eq_iff]
    norm_num
  constructor
  · norm_num [calculate_donation_amount, pyIntQ, quantizeCents,
      roundHalfEvenZ, Int.even_iff]
  · norm_num [spec_roundup_half_up, roundHalfUpZ, hc]

/-- C1 (amended): for every positive amount and every multiplier,
`calculate_donation_amount` equals the spec's round-up rule with the flat
1.00 base on whole-dollar amounts, except that the final rounding to two
decimals is round-half-to-even (the `Decimal.quantize` default), not
round-half-up; the spec's three test vectors hold as stated. -/
theorem calculate_donation_amount_roundup_rule (a m : ℚ) (ha : 0 < a) :
    calculate_donation_amount a m = spec_roundup_half_even a m ∧
      calculate_donation_amount (43/10) 1 = 7/10 ∧
      calculate_donation_amount 5 1 = 1 ∧
      calculate_donation_amount (21/10) 2 = 9/5 := by
  refine ⟨?_, ?_, ?_, ?_⟩
  · unfold calculate_donation_amount spec_roundup_half_even quantizeCents
    rw [pyIntQ_of_pos ha]
    have hb := base_eq a
    simp only at hb ⊢
    rw [hb]
  all_goals
    norm_num [calculate_donation_amount, pyIntQ, quantizeCents,
      roundHalfEvenZ, Int.even_iff]

/-- C1 witness: the amended theorem applied at amount 4.30, multiplier 1. -/
theorem calculate_donation_amount_roundup_rule_witness :
    calculate_donation_amount (43/10) 1 = spec_roundup_half_even (43/10) 1 :=
  (calculate_donation_amount_roundup_rule (43/10) 1 (by norm_num)).1

/-! ## Merchant-name normalization and mapping lookup

Embeds `normalize_merchant_name` from
`src/backend/app/services/plaid_service.py` and `find_mapping` from
`src/backend/app/services/matching_service.py`. -/

/-- Whitespace characters matched by the regex class backslash-s. -/
def isPySpace (c : Char) : Bool :=
  c = ' ' || c = '\t' || c = '\n' || c = '\r' || c = '\x0b' || c = '\x0c'

/-- Characters kept by the substitution removing everything outside
uppercase letters, digits and whitespace. -/
def isKeptChar (c : Char) : Bool :=
  ('A' ≤ c && c ≤ 'Z') || ('0' ≤ c && c ≤ '9') || isPySpace c

/-- Characters that can appear in a normalized merchant name: uppercase
letters, digits, and the single space. -/
def allowedChar (c : Char) : Bool :=
  ('A' ≤ c && c ≤ 'Z') || ('0' ≤ c && c ≤ '9') || c = ' '

/-- Replacement of every maximal whitespace run by one space, as the
substitution of the regex one-or-more-whitespace by a single space. -/
def collapseWs : List Char → List Char
  | [] => []
  | c :: rest =>
    if isPySpace c then ' ' :: collapseWs (rest.dropWhile isPySpace)
    else c :: collapseWs rest
termination_by l => l.length
decreasing_by
  · exact Nat.lt_succ_of_le ((List.dropWhile_sublist isPySpace).length_le)
  · exact Nat.lt_succ_self _

/-- Removal of leading and trailing whitespace, as Python's `str.strip()`. -/
def pyStrip (l : List Char) : List Char :=
  ((l.dropWhile isPySpace).reverse.dropWhile isPySpace).reverse

/-- ASCII model of Python's `str.upper()`. -/
def pyUpper (s : String) : String :=
  String.mk (s.toList.map Char.toUpper)

/-- Embeds `normalize_merchant_name(name)`: uppercase, remove characters
outside letters, digits and whitespace, collapse whitespace runs, strip. -/
def normalize_merchant_name (name : String) : String :=
  String.mk (pyStrip (collapseWs ((pyUpper name).toList.filter isKeptChar)))

/-- Boolean prefix test on character lists. -/
def isPrefixL : List Char → List Char → Bool
  | [], _ => true
  | _ :: _, [] => false
  | a :: as, b :: bs => a == b && isPrefixL as bs

/-- Boolean substring test on character lists, as Python's `in` on strings. -/
def isSubstrL (p : List Char) : List Char → Bool
  | [] => p.isEmpty
  | c :: rest => isPrefixL p (c :: rest) || isSubstrL p rest

/-- Row of the `BusinessMapping` table. -/
structure BusinessMapping where
  id : String
  merchantPattern : String
  causeId : String
  charitySlug : String
  charityName : String
  isActive : Bool
deriving Repr, DecidableEq

/-- Embeds the query of `get_business_mappings`: the active mappings, in
database list order (the cache layer returns the same list). -/
def get_business_mappings (mappings : List BusinessMapping) : List BusinessMapping :=
  mappings.filter (fun m => m.isActive)

/-- The match test of the loop body of `find_mapping`: the uppercased
pattern is a substring of the normalized name. -/
def mapping_matches (normalized : String) (m : BusinessMapping) : Bool :=
  isSubstrL (pyUpper m.merchantPattern).toList normalized.toList

/-- Embeds `find_mapping(db, merchant_name)`: normalize the name, then
return the first active mapping whose uppercased pattern is contained in
the normalized name. -/
def find_mapping (mappings : List BusinessMapping) (merchant_name : String) :
    Option BusinessMapping :=
  let normalized := normalize_merchant_name merchant_name
  (get_business_mappings mappings).find? (fun m => mapping_matches normalized m)

lemma mem_collapseWs {x : Char} (l : List Char) (hx : x ∈ collapseWs l) :
    x = ' ' ∨ (x ∈ l ∧ isPySpace x = false) := by
  induction l using collapseWs.induct with
  | case1 => simp [collapseWs] at hx
  | case2 c rest h ih =>
    rw [collapseWs, if_pos h] at hx
    rcases List.mem_cons.mp hx with h1 | h2
    · exact Or.inl h1
    · rcases ih h2 with h3 | ⟨h4, h5⟩
      · exact Or.inl h3
      · exact Or.inr ⟨List.mem_cons_of_mem _ ((List.dropWhile_sublist _).mem h4), h5⟩
  | case3 c rest h ih =>
    rw [collapseWs, if_neg h] at hx
    rcases List.mem_cons.mp hx with h1 | h2
    · subst h1
      exact Or.inr ⟨List.mem_cons_self _ _, by simpa using h⟩
    · rcases ih h2 with h3 | ⟨h4, h5⟩
      · exact Or.inl h3
      · exact Or.inr ⟨List.mem_cons_of_mem _ h4, h5⟩

lemma mem_pyStrip {x : Char} {l : List Char} (hx : x ∈ pyStrip l) : x ∈ l := by
  unfold pyStrip at hx
  rw [List.mem_reverse] at hx
  have h1 := (List.dropWhile_sublist isPySpace).mem hx
  rw [List.mem_reverse] at h1
  exact (List.dropWhile_sublist isPySpace).mem h1

lemma allowed_of_mem_normalize {x : Char} {name : String}
    (hx : x ∈ (normalize_merchant_name name).toList) : allowedChar x = true := by
  have hx' : x ∈ pyStrip (collapseWs ((pyUpper name).toList.filter isKeptChar)) := hx
  have h1 := mem_pyStrip hx'
  rcases mem_collapseWs _ h1 with h2 | ⟨h3, h4⟩
  · simp [allowedChar, h2]
  · have h6 : isKeptChar x = true := (List.mem_filter.mp h3).2
    simp only [isKeptChar, h4, Bool.or_false, Bool.or_eq_true, Bool.and_eq_true] at h6
    simp only [allowedChar, Bool.or_eq_true, Bool.and_eq_true]
    tauto

lemma mem_of_isPrefixL {p : List Char} {x : Char} (hx : x ∈ p) :
    ∀ {s : List Char}, isPrefixL p s = true → x ∈ s := by
  induction p with
  | nil => simp at hx
  | cons a as ih =>
    intro s h
    cases s with
    | nil => simp [isPrefixL] at h
    | cons b bs =>
      rw [isPrefixL, Bool.and_eq_true] at h
      rcases List.mem_cons.mp hx with h3 | h4
      · subst h3
        rw [eq_of_beq h.1]
        exact List.mem_cons_self _ _
      · exact List.mem_cons_of_mem _ (ih h4 h.2)

lemma mem_of_isSubstrL {p : List Char} {x : Char} (hx : x ∈ p) :
    ∀ {s : List Char}, isSubstrL p s = true → x ∈ s := by
  intro s
  induction s with
  | nil =>
    intro h
    rw [isSubstrL, List.isEmpty_iff] at h
    subst h
    simp at hx
  | cons b bs ih =>
    intro h
    rw [isSubstrL, Bool.or_eq_true] at h
    rcases h with h1 | h2
    · exact mem_of_isPrefixL hx h1
    · exact List.mem_cons_of_mem _ (ih h2)

lemma find?_eq_some_first {α : Type} (p : α → Bool) (l : List α) (a : α)
    (h : l.find? p = some a) :
    ∃ pre post, l = pre ++ a :: post ∧ p a = true ∧ ∀ x ∈ pre, p x = false := by
  induction l with
  | nil => simp at h
  | cons b bs ih =>
    by_cases hb : p b = true
    · rw [List.find?_cons_of_pos _ hb] at h
      cases h
      exact ⟨[], bs, rfl, hb, by simp⟩
    · have hb' : p b = false := by simpa using hb
      rw [List.find?_cons_of_neg _ hb] at h
      obtain ⟨pre, post, he, hp, hall⟩ := ih h
      refine ⟨b :: pre, post, by rw [he, List.cons_append], hp, ?_⟩
      intro x hx
      rcases List.mem_cons.mp hx with h1 | h2
      · subst h1; exact hb'
      · exact hall x h2

lemma head?_dropWhile_not {p : Char → Bool} :
    ∀ {l : List Char} {y : Char}, (l.dropWhile p).head? = some y → p y = false := by
  intro l
  induction l with
  | nil => intro y hy; simp at hy
  | cons c t ih =>
    intro y hy
    by_cases hc : p c = true
    · rw [List.dropWhile_cons_of_pos hc] at hy
      exact ih hy
    · have hc' : p c = false := by simpa using hc
      rw [List.dropWhile_cons_of_neg (by simp [hc'])] at hy
      simp only [List.head?_cons, Option.some.injEq] at hy
      subst hy
      exact hc'

lemma getLast?_dropWhile (p : Char → Bool) :
    ∀ l : List Char, l.dropWhile p = [] ∨ (l.dropWhile p).getLast? = l.getLast? := by
  intro l
  induction l with
  | nil => exact Or.inl rfl
  | cons c t ih =>
    by_cases hc : p c = true
    · rw [List.dropWhile_cons_of_pos hc]
      rcases ih with h1 | h2
      · exact Or.inl h1
      · cases t with
        | nil => exact Or.inl (by simp)
        | cons x xs =>
          right
          rw [h2, List.getLast?_cons_cons]
    · right
      rw [List.dropWhile_cons_of_neg (by simpa using hc)]

lemma pyStrip_head_not_space {l : List Char} {y : Char}
    (hy : (pyStrip l).head? = some y) : isPySpace y = false := by
  unfold pyStrip at hy
  rw [List.head?_reverse] at hy
  rcases getLast?_dropWhile isPySpace ((l.dropWhile isPySpace).reverse) with h1 | h2
  · rw [h1] at hy; simp at hy
  · rw [h2, List.getLast?_reverse] at hy
    exact head?_dropWhile_not hy

lemma pyStrip_getLast_not_space {l : List Char} {y : Char}
    (hy : (pyStrip l).getLast? = some y) : isPySpace y = false := by
  unfold pyStrip at hy
  rw [List.getLast?_reverse] at hy
  exact head?_dropWhile_not hy

lemma collapseWs_head_not_space {m : List Char}
    (hm : ∀ y, m.head? = some y → isPySpace y = false) :
    ∀ y, (collapseWs m).head? = some y → isPySpace y = false := by
  cases m with
  | nil => intro y hy; simp [collapseWs] at hy
  | cons d t =>
    have hd : isPySpace d = false := hm d rfl
    intro y hy
    rw [collapseWs, if_neg (by simp [hd])] at hy
    simp only [List.head?_cons, Option.some.injEq] at hy
    subst hy
    exact hd

lemma chain'_collapseWs (l : List Char) :
    List.Chain' (fun a b => ¬(isPySpace a = true ∧ isPySpace b = true)) (collapseWs l) := by
  induction l using collapseWs.induct with
  | case1 => simp [collapseWs]
  | case2 c rest h ih =>
    rw [collapseWs, if_pos h]
    refine List.chain'_cons'.mpr ⟨?_, ih⟩
    intro b hb
    have hbs := collapseWs_head_not_space
      (fun y hy => head?_dropWhile_not hy) b hb
    intro hcontra
    rw [hbs] at hcontra
    exact Bool.false_ne_true hcontra.2
  | case3 c rest h ih =>
    rw [collapseWs, if_neg h]
    refine List.chain'_cons'.mpr ⟨?_, ih⟩
    intro b hb hcontra
    exact h hcontra.1

lemma chain'_pyStrip {R : Char → Char → Prop} (hsymm : ∀ a b, R a b → R b a)
    {l : List Char} (hl : List.Chain' R l) : List.Chain' R (pyStrip l) := by
  unfold pyStrip
  have h1 : List.Chain' R (l.dropWhile isPySpace) :=
    hl.suffix (List.dropWhile_suffix _)
  have h2 : List.Chain' R ((l.dropWhile isPySpace).reverse) :=
    List.chain'_reverse.mpr (h1.imp (fun a b hab => hsymm a b hab))
  have h3 : List.Chain' R (((l.dropWhile isPySpace).reverse).dropWhile isPySpace) :=
    h2.suffix (List.dropWhile_suffix _)
  exact List.chain'_reverse.mpr (h3.imp (fun a b hab => hsymm a b hab))

/-- C3: `find_mapping` returns the first mapping in list order of the
active `BusinessMapping`s whose uppercased pattern is a substring of the
normalized merchant name, and `none` when no pattern matches; the
normalization produces only characters in the class of uppercase letters,
digits and space, with no leading or trailing space and no two adjacent
spaces. -/
theorem find_mapping_first_match (mappings : List BusinessMapping) (name : String) :
    (∀ m, find_mapping mappings name = some m →
        ∃ pre post,
          get_business_mappings mappings = pre ++ m :: post ∧
            mapping_matches (normalize_merchant_name name) m = true ∧
            ∀ m' ∈ pre, mapping_matches (normalize_merchant_name name) m' = false) ∧
      (find_mapping mappings name = none ↔
        ∀ m ∈ get_business_mappings mappings,
          mapping_matches (normalize_merchant_name name) m = false) ∧
      (∀ c ∈ (normalize_merchant_name name).toList, allowedChar c = true) ∧
      (∀ y, (normalize_merchant_name name).toList.head? = some y → y ≠ ' ') ∧
      (∀ y, (normalize_merchant_name name).toList.getLast? = some y → y ≠ ' ') ∧
      List.Chain' (fun a b => ¬(a = ' ' ∧ b = ' '))
        (normalize_merchant_name name).toList := by
  refine ⟨?_, ?_, ?_, ?_, ?_, ?_⟩
  · intro m hm
    exact find?_eq_some_first _ _ _ hm
  · unfold find_mapping
    rw [List.find?_eq_none]
    constructor
    · intro h m hmem
      simpa using h m hmem
    · intro h m hmem
      simp [h m hmem]
  · intro c hc
    exact allowed_of_mem_normalize hc
  · intro y hy hsp
    subst hsp
    have := pyStrip_head_not_space (l := collapseWs ((pyUpper name).toList.filter isKeptChar)) hy
    simp [isPySpace] at this
  · intro y hy hsp
    subst hsp
    have := pyStrip_getLast_not_space (l := collapseWs ((pyUpper name).toList.filter isKeptChar)) hy
    simp [isPySpace] at this
  · have hch : List.Chain' (fun a b => ¬(isPySpace a = true ∧ isPySpace b = true))
        ((normalize_merchant_name name).toList) :=
      chain'_pyStrip (fun a b hab h => hab ⟨h.2, h.1⟩)
        (chain'_collapseWs ((pyUpper name).toList.filter isKeptChar))
    refine hch.imp ?_
    intro a b hab ⟨ha, hb⟩
    subst ha
    subst hb
    exact hab ⟨by simp [isPySpace], by simp [isPySpace]⟩

/-- C3 witness: the theorem applied to a concrete mapping list and merchant
name, specialized to the none-characterization conjunct. -/
theorem find_mapping_first_match_witness :
    find_mapping [⟨"m1", "STARBUCKS", "c1", "s1", "Charity One", true⟩]
        "Local  Diner #4" = none ↔
      ∀ m ∈ get_business_mappings
          [⟨"m1", "STARBUCKS", "c1", "s1", "Charity One", true⟩],
        mapping_matches (normalize_merchant_name "Local  Diner #4") m = false :=
  (find_mapping_first_match
    [⟨"m1", "STARBUCKS", "c1", "s1", "Charity One", true⟩] "Local  Diner #4").2.1

/-- C10: a mapping whose pattern, after uppercasing, contains a character
outside the class of uppercase letters, digits and space can never be
returned by `find_mapping`, for any merchant name and any mapping list:
normalized names contain only characters of that class, so the pattern is
a substring of no normalized name. -/
theorem find_mapping_never_special_pattern
    (mappings : List BusinessMapping) (m : BusinessMapping) (name : String)
    (hm : ∃ c ∈ (pyUpper m.merchantPattern).toList, allowedChar c = false) :
    find_mapping mappings name ≠ some m := by
  intro hfind
  obtain ⟨c, hc, hbad⟩ := hm
  unfold find_mapping at hfind
  have hp := List.find?_some hfind
  simp only [mapping_matches] at hp
  have hmem := mem_of_isSubstrL hc hp
  have hall := allowed_of_mem_normalize hmem
  rw [hall] at hbad
  simp at hbad

/-- C10 witness: the theorem applied to a mapping whose pattern contains an
ampersand, which therefore never matches, here at the name it most
resembles. -/
theorem find_mapping_never_special_pattern_witness :
    find_mapping [⟨"m1", "A&B", "c1", "s1", "Charity One", true⟩]
        "A&B Market" ≠ some ⟨"m1", "A&B", "c1", "s1", "Charity One", true⟩ :=
  find_mapping_never_special_pattern _ _ _ (by decide)

/-! ## Data model

Rows of the tables in `src/backend/app/models`, restricted to the columns
the verified jobs read or write.  `Decimal` columns are exact rationals,
nullable columns are `Option`s, and timestamps are abstracted to the
information the code consumes. -/

/-- Status enum of `Transaction`. -/
inductive TransactionStatus
  | PENDING
  | MATCHED
  | BATCHED
  | DONATED
  | SKIPPED
  | FAILED
deriving Repr, DecidableEq

/-- Status enum of `Donation`. -/
inductive DonationStatus
  | PENDING
  | PROCESSING
  | COMPLETED
  | FAILED
  | REFUNDED
deriving Repr, DecidableEq

/-- Status enum of `DonationBatch`. -/
inductive DonationBatchStatus
  | PENDING
  | READY
  | PROCESSING
  | COMPLETED
  | FAILED
deriving Repr, DecidableEq

/-- Status enum of `WebhookEvent`. -/
inductive WebhookStatus
  | PENDING
  | PROCESSING
  | COMPLETED
  | FAILED
deriving Repr, DecidableEq

/-- Row of the `Transaction` table; the date column is abstracted to an
integer day number. -/
structure Transaction where
  id : String
  userId : String
  bankAccountId : String
  plaidTransactionId : String
  merchantName : String
  merchantNameNorm : String
  amount : ℚ
  date : ℤ
  category : List String
  status : TransactionStatus
  matchedMappingId : Option String
deriving Repr, DecidableEq

/-- Row of the `User` table. -/
structure User where
  id : String
  donationMultiplier : ℚ
  monthlyLimit : Option ℚ
  currentMonthTotal : ℚ
  autoDonateEnabled : Bool
  stripeCustomerId : Option String
deriving Repr, DecidableEq

/-- Row of the `Charity` table.  The source model has no
`changeNonprofitId` column; the distribution job reads it with `getattr`
and a `None` default, which the optional field models. -/
structure Charity where
  id : String
  causeId : String
  everyOrgSlug : String
  name : String
  ein : Option String
  changeNonprofitId : Option String
  isDefault : Bool
  isActive : Bool
deriving Repr, DecidableEq

/-- Row of the `Donation` table. -/
structure Donation where
  id : String
  userId : String
  batchId : Option String
  transactionId : Option String
  charityId : String
  charitySlug : String
  charityName : String
  amount : ℚ
  status : DonationStatus
  changeId : Option String
  errorMessage : Option String
deriving Repr, DecidableEq

/-- Row of the `DonationBatch` table; `weekOf` is a date, abstracted to an
integer day number (only compared for equality). -/
structure DonationBatch where
  id : String
  userId : String
  weekOf : ℤ
  totalAmount : ℚ
  status : DonationBatchStatus
deriving Repr, DecidableEq

/-! ## Matching engine state and `process_transaction`

Embeds `process_transaction` from
`src/backend/app/services/matching_service.py`.  The database session is a
record of table contents; `generate_cuid()` is passed in as the fresh
donation id. -/

/-- Tables read and written by the matching engine. -/
structure MatchState where
  transactions : List Transaction
  users : List User
  mappings : List BusinessMapping
  userCauses : List (String × String)
  charities : List Charity
  donations : List Donation
deriving Repr, DecidableEq

/-- Result dictionary of `process_transaction`. -/
structure ProcessResult where
  matched : Bool
  donationId : Option String
deriving Repr, DecidableEq

/-- Embeds `user_has_cause(db, user_id, cause_id)`. -/
def user_has_cause (s : MatchState) (user_id cause_id : String) : Bool :=
  s.userCauses.any (fun uc => uc.1 = user_id && uc.2 = cause_id)

/-- Embeds `get_default_charity(db, cause_id)`. -/
def get_default_charity (s : MatchState) (cause_id : String) : Option Charity :=
  s.charities.find? (fun c => c.causeId = cause_id && c.isDefault && c.isActive)

/-- Python truthiness of an optional `Decimal`: `None` and `0` are falsy.
The monthly-limit guard `if user.monthlyLimit:` uses this test. -/
def pyTruthyOptQ : Option ℚ → Bool
  | none => false
  | some v => v ≠ 0

/-- Replacement of the row with the same id, modelling an in-place ORM
update of a fetched `Transaction` object. -/
def setTransaction (ts : List Transaction) (t : Transaction) : List Transaction :=
  ts.map (fun x => if x.id = t.id then t else x)

/-- Replacement of the row with the same id, modelling an in-place ORM
update of a fetched `User` object. -/
def setUser (us : List User) (u : User) : List User :=
  us.map (fun x => if x.id = u.id then u else x)

/-- Embeds `process_transaction(db, user_id, transaction_id)`; the
`new_donation_id` argument stands for the generated cuid.  Returns the
updated session state and the result dictionary. -/
def process_transaction (s : MatchState)
    (user_id transaction_id new_donation_id : String) :
    MatchState × ProcessResult :=
  match s.transactions.find? (fun t => t.id = transaction_id) with
  | none => (s, ⟨false, none⟩)
  | some transaction =>
    match find_mapping s.mappings transaction.merchantName with
    | none =>
      let t' := { transaction with status := TransactionStatus.SKIPPED }
      ({ s with transactions := setTransaction s.transactions t' }, ⟨false, none⟩)
    | some mapping =>
      if ¬ user_has_cause s user_id mapping.causeId then
        let t' := { transaction with status := TransactionStatus.SKIPPED,
                                     matchedMappingId := some mapping.id }
        ({ s with transactions := setTransaction s.transactions t' }, ⟨false, none⟩)
      else
        match s.users.find? (fun u => u.id = user_id) with
        | none => (s, ⟨false, none⟩)
        | some user =>
          let donation_amount :=
            calculate_donation_amount transaction.amount user.donationMultiplier
          let cap_hit :=
            pyTruthyOptQ user.monthlyLimit &&
              decide (user.currentMonthTotal + donation_amount >
                user.monthlyLimit.getD 0)
          if cap_hit then
            let t' := { transaction with status := TransactionStatus.SKIPPED,
                                         matchedMappingId := some mapping.id }
            ({ s with transactions := setTransaction s.transactions t' },
              ⟨false, none⟩)
          else
            match get_default_charity s mapping.causeId with
            | none => (s, ⟨false, none⟩)
            | some charity =>
              let transaction' :=
                { transaction with status := .MATCHED,
                                   matchedMappingId := some mapping.id }
              let donation : Donation :=
                ⟨new_donation_id, user_id, none, some transaction_id,
                  charity.id, charity.everyOrgSlug, charity.name,
                  donation_amount, .PENDING, none, none⟩
              let user' :=
                { user with currentMonthTotal :=
                    user.currentMonthTotal + donation_amount }
              ({ s with
                  transactions := setTransaction s.transactions transaction',
                  donations := s.donations ++ [donation],
                  users := setUser s.users user' },
                ⟨true, some new_donation_id⟩)

/-- C2 (amended): for every user whose monthly cap is truthy (non-null and
non-zero), when the current month total plus the computed donation amount
would exceed the cap, `process_transaction` creates no donation, leaves
every user row (hence the running total) unchanged, reports no match, and
the only state change is the fetched transaction being set to SKIPPED. -/
theorem process_transaction_respects_monthly_cap
    (s : MatchState) (uid tid did : String) (t : Transaction) (u : User) (lim : ℚ)
    (ht : s.transactions.find? (fun x => x.id = tid) = some t)
    (hu : s.users.find? (fun x => x.id = uid) = some u)
    (hlim : u.monthlyLimit = some lim) (hlim0 : lim ≠ 0)
    (hexceed : u.currentMonthTotal +
      calculate_donation_amount t.amount u.donationMultiplier > lim) :
    (process_transaction s uid tid did).1.donations = s.donations ∧
      (process_transaction s uid tid did).1.users = s.users ∧
      (process_transaction s uid tid did).2.matched = false ∧
      ∃ t', (process_transaction s uid tid did).1.transactions =
          setTransaction s.transactions t' ∧
        t'.id = t.id ∧ t'.status = TransactionStatus.SKIPPED := by
  simp only [process_transaction, ht]
  cases hm : find_mapping s.mappings t.merchantName with
  | none =>
    simp only [hm]
    exact ⟨by trivial, by trivial, by trivial, _, rfl, rfl, rfl⟩
  | some mapping =>
    simp only [hm, hu]
    by_cases hc : user_has_cause s uid mapping.causeId = true
    · have hcap : (pyTruthyOptQ u.monthlyLimit && decide
          (u.currentMonthTotal +
              calculate_donation_amount t.amount u.donationMultiplier >
            u.monthlyLimit.getD 0)) = true := by
        rw [hlim]
        simp only [pyTruthyOptQ, Option.getD_some, Bool.and_eq_true,
          decide_eq_true_eq]
        exact ⟨by simpa using hlim0, hexceed⟩
      rw [if_neg (fun hn => hn hc), if_pos hcap]
      exact ⟨by trivial, by trivial, by trivial, _, rfl, rfl, rfl⟩
    · rw [if_pos hc]
      exact ⟨by trivial, by trivial, by trivial, _, rfl, rfl, rfl⟩

/-- Transaction row for the monthly-cap scenarios. -/
def capTxn : Transaction :=
  ⟨"t1", "u1", "b1", "pt1", "STARBUCKS", "STARBUCKS", 43/10, 0, [],
    TransactionStatus.PENDING, none⟩

/-- Mapping row for the monthly-cap scenarios. -/
def capMapping : BusinessMapping :=
  ⟨"m1", "STARBUCKS", "c1", "slug1", "Charity One", true⟩

/-- Charity row for the monthly-cap scenarios. -/
def capCharity : Charity :=
  ⟨"ch1", "c1", "slug1", "Charity One", none, none, true, true⟩

/-- User with a cap of 20.00 and a current total of 19.50. -/
def capUser : User := ⟨"u1", 1, some 20, 39/2, true, none⟩

/-- State for the amended monthly-cap witness. -/
def capState : MatchState :=
  ⟨[capTxn], [capUser], [capMapping], [("u1", "c1")], [capCharity], []⟩

/-- User with the non-null cap 0.00, which Python's truthiness test treats
like a missing cap. -/
def capZeroUser : User := ⟨"u1", 1, some 0, 0, true, none⟩

/-- State for the cap-zero counterexample. -/
def capZeroState : MatchState :=
  ⟨[capTxn], [capZeroUser], [capMapping], [("u1", "c1")], [capCharity], []⟩

lemma find_mapping_capMapping :
    find_mapping [⟨"m1", "STARBUCKS", "c1", "slug1", "Charity One", true⟩]
        "STARBUCKS" =
      some ⟨"m1", "STARBUCKS", "c1", "slug1", "Charity One", true⟩ := by
  simp +decide [find_mapping, get_business_mappings, mapping_matches,
    normalize_merchant_name, pyUpper, collapseWs, pyStrip, isPySpace,
    isKeptChar, isPrefixL, isSubstrL]

lemma calculate_donation_amount_430_1 :
    calculate_donation_amount (43/10) 1 = 7/10 := by
  norm_num [calculate_donation_amount, pyIntQ, quantizeCents, roundHalfEvenZ]

/-- C2, counterexample: the user has the configured non-null monthly cap
0.00 and current total 0; the computed donation 0.70 would exceed the cap,
yet `process_transaction` matches the transaction and records the donation,
raising the total to 0.70 above the cap, because `if user.monthlyLimit:`
is falsy at the `Decimal` value 0. -/
theorem process_transaction_cap_zero_counterexample :
    (process_transaction capZeroState "u1" "t1" "d1").2.matched = true ∧
      (process_transaction capZeroState "u1" "t1" "d1").1.donations.length = 1 ∧
      (process_transaction capZeroState "u1" "t1" "d1").1.users =
        [⟨"u1", 1, some 0, 7/10, true, none⟩] := by
  have hfm := find_mapping_capMapping
  have hamt := calculate_donation_amount_430_1
  refine ⟨?_, ?_, ?_⟩ <;>
    simp +decide [process_transaction, capZeroState, capTxn, capZeroUser,
      capCharity, hfm, hamt, user_has_cause, get_default_charity,
      pyTruthyOptQ, setTransaction, setUser, capMapping]

/-! ## Transaction ingestion

Embeds `_process_added_transaction` and `_process_removed_transaction`
from `src/backend/app/jobs/sync_transactions.py`. -/

/-- Row of the `BankAccount` table, restricted to the lookup columns. -/
structure BankAccount where
  id : String
  plaidAccountId : String
  plaidItemId : String
deriving Repr, DecidableEq

/-- Tables touched by the sync job, plus a counter standing in for the
cuid generator. -/
structure SyncState where
  transactions : List Transaction
  donations : List Donation
  bankAccounts : List BankAccount
  nextId : Nat
deriving Repr, DecidableEq

/-- Entry of a provider feed page, as the consumed fields of a Plaid
transaction object; the date is an abstract day number. -/
structure PlaidTxn where
  transaction_id : String
  account_id : String
  pending : Bool
  merchant_name : Option String
  name : String
  amount : ℚ
  date : ℤ
  category : Option (List String)
deriving Repr, DecidableEq

/-- Python's `a or b` on an optional string and a string: `None` and the
empty string are falsy. -/
def pyOrStr (a : Option String) (b : String) : String :=
  match a with
  | none => b
  | some m => if m = "" then b else m

/-- Embeds `_process_removed_transaction(db, txn)`: with no external id the
call reports `False`; otherwise the transaction with that external id is
deleted together with any linked donation (the unique constraint on
`Donation.transactionId` makes the single fetched row the set of linked
rows), and the call reports `True`; with no local match it reports
`False`. -/
def _process_removed_transaction (s : SyncState) (transaction_id : Option String) :
    SyncState × Bool :=
  match transaction_id with
  | none => (s, false)
  | some tid =>
    if tid = "" then (s, false)
    else
      match s.transactions.find? (fun t => t.plaidTransactionId = tid) with
      | none => (s, false)
      | some transaction =>
        let donations' :=
          s.donations.filter (fun d => ¬ d.transactionId = some transaction.id)
        let transactions' :=
          s.transactions.filter (fun t => ¬ t.id = transaction.id)
        ({ s with transactions := transactions', donations := donations' }, true)

/-- C9 (amended): `_process_removed_transaction` deletes the local
transaction carrying the given external id and any linked donation
regardless of the donation's status (final donations included); with no
matching local transaction, or no external id, it is a no-op reporting
`False`. -/
theorem _process_removed_transaction_spec (s : SyncState) (tid : String)
    (htid : tid ≠ "") :
    (s.transactions.find? (fun t => t.plaidTransactionId = tid) = none →
        _process_removed_transaction s (some tid) = (s, false)) ∧
      (∀ t, s.transactions.find? (fun x => x.plaidTransactionId = tid) = some t →
        (_process_removed_transaction s (some tid)).2 = true ∧
          (∀ d ∈ s.donations, d.transactionId = some t.id →
            d ∉ (_process_removed_transaction s (some tid)).1.donations) ∧
          (∀ d ∈ s.donations, d.transactionId ≠ some t.id →
            d ∈ (_process_removed_transaction s (some tid)).1.donations) ∧
          (∀ x ∈ s.transactions, x.id = t.id →
            x ∉ (_process_removed_transaction s (some tid)).1.transactions) ∧
          (∀ x ∈ s.transactions, x.id ≠ t.id →
            x ∈ (_process_removed_transaction s (some tid)).1.transactions)) ∧
      _process_removed_transaction s none = (s, false) := by
  refine ⟨?_, ?_, rfl⟩
  · intro hnone
    simp only [_process_removed_transaction, if_neg htid, hnone]
  · intro t ht
    simp only [_process_removed_transaction, if_neg htid, ht]
    refine ⟨by trivial, ?_, ?_, ?_, ?_⟩
    · intro d hd hlink
      simp only [List.mem_filter]
      intro hcontra
      rcases hcontra with ⟨h1, h2⟩
      simp [hlink] at h2
    · intro d hd hlink
      simp only [List.mem_filter]
      exact ⟨hd, by simpa using hlink⟩
    · intro x hx hid
      simp only [List.mem_filter]
      intro hcontra
      rcases hcontra with ⟨h1, h2⟩
      simp [hid] at h2
    · intro x hx hid
      simp only [List.mem_filter]
      exact ⟨hx, by simpa using hid⟩

/-- Embeds `_process_added_transaction(db, user_id, plaid_item_id, txn)`:
pending entries are skipped, entries whose external id already exists
locally are skipped, entries whose bank account is unknown are skipped with
an error log, and the rest are inserted as PENDING transactions; the
generated cuid is modelled by the state counter. -/
def _process_added_transaction (s : SyncState) (user_id plaid_item_id : String)
    (txn : PlaidTxn) : SyncState × Option Transaction :=
  if txn.pending then (s, none)
  else
    match s.transactions.find?
        (fun t => t.plaidTransactionId = txn.transaction_id) with
    | some _ => (s, none)
    | none =>
      match s.bankAccounts.find? (fun b =>
          b.plaidAccountId = txn.account_id && b.plaidItemId = plaid_item_id) with
      | none => (s, none)
      | some bank_account =>
        let merchant_name := pyOrStr txn.merchant_name txn.name
        let transaction : Transaction :=
          ⟨"cuid" ++ toString s.nextId, user_id, bank_account.id,
            txn.transaction_id, merchant_name,
            normalize_merchant_name merchant_name, |txn.amount|, txn.date,
            txn.category.getD [], TransactionStatus.PENDING, none⟩
        ({ s with transactions := s.transactions ++ [transaction],
                  nextId := s.nextId + 1 }, some transaction)

/-- Application of the added entries of one feed page, in page order, as
the `for txn in response.added` loop does (the immediate matching pass
touches neither external ids nor bank accounts and is analysed
separately). -/
def applyAddedPage (s : SyncState) (user_id plaid_item_id : String)
    (page : List PlaidTxn) : SyncState :=
  page.foldl
    (fun st txn => (_process_added_transaction st user_id plaid_item_id txn).1) s

/-- A transaction with the given external id is present. -/
def extIdPresent (s : SyncState) (tid : String) : Prop :=
  ∃ t ∈ s.transactions, t.plaidTransactionId = tid

lemma added_bankAccounts (s : SyncState) (uid pid : String) (txn : PlaidTxn) :
    ((_process_added_transaction s uid pid txn).1).bankAccounts =
      s.bankAccounts := by
  unfold _process_added_transaction
  split
  · rfl
  · split
    · rfl
    · split
      · rfl
      · rfl

lemma added_mono (s : SyncState) (uid pid : String) (txn : PlaidTxn)
    {t : Transaction} (ht : t ∈ s.transactions) :
    t ∈ ((_process_added_transaction s uid pid txn).1).transactions := by
  unfold _process_added_transaction
  split
  · exact ht
  · split
    · exact ht
    · split
      · exact ht
      · exact List.mem_append_left _ ht

lemma added_noop_pending (s : SyncState) (uid pid : String) (txn : PlaidTxn)
    (h : txn.pending = true) :
    (_process_added_transaction s uid pid txn).1 = s := by
  unfold _process_added_transaction
  rw [if_pos h]

lemma added_noop_present (s : SyncState) (uid pid : String) (txn : PlaidTxn)
    (h : extIdPresent s txn.transaction_id) :
    (_process_added_transaction s uid pid txn).1 = s := by
  obtain ⟨t, ht, hid⟩ := h
  have hfind : s.transactions.find?
      (fun x => x.plaidTransactionId = txn.transaction_id) ≠ none := by
    intro hnone
    rw [List.find?_eq_none] at hnone
    exact absurd (by simpa using hid) (hnone t ht)
  unfold _process_added_transaction
  split
  · rfl
  · split
    · rfl
    · next hnone => exact absurd hnone hfind

lemma added_noop_nobank (s : SyncState) (uid pid : String) (txn : PlaidTxn)
    (h : s.bankAccounts.find? (fun b =>
      b.plaidAccountId = txn.account_id && b.plaidItemId = pid) = none) :
    (_process_added_transaction s uid pid txn).1 = s := by
  unfold _process_added_transaction
  split
  · rfl
  · split
    · rfl
    · rw [h]

lemma added_present (s : SyncState) (uid pid : String) (txn : PlaidTxn)
    (hp : txn.pending = false)
    (hb : s.bankAccounts.find? (fun b =>
      b.plaidAccountId = txn.account_id && b.plaidItemId = pid) ≠ none) :
    extIdPresent ((_process_added_transaction s uid pid txn).1)
      txn.transaction_id := by
  unfold _process_added_transaction
  rw [if_neg (by simp [hp])]
  cases hdup : s.transactions.find?
      (fun t => t.plaidTransactionId = txn.transaction_id) with
  | some t0 =>
    refine ⟨t0, List.mem_of_find?_eq_some hdup, ?_⟩
    have := List.find?_some hdup
    simpa using this
  | none =>
    cases hbk : s.bankAccounts.find? (fun b =>
        b.plaidAccountId = txn.account_id && b.plaidItemId = pid) with
    | none => exact absurd hbk hb
    | some bank_account =>
      exact ⟨_, List.mem_append_right _ (List.mem_singleton_self _), rfl⟩

lemma applyAddedPage_bankAccounts (uid pid : String) (page : List PlaidTxn) :
    ∀ s : SyncState,
      (applyAddedPage s uid pid page).bankAccounts = s.bankAccounts := by
  induction page with
  | nil => intro s; rfl
  | cons txn rest ih =>
    intro s
    show (applyAddedPage (_process_added_transaction s uid pid txn).1
      uid pid rest).bankAccounts = s.bankAccounts
    rw [ih, added_bankAccounts]

lemma applyAddedPage_mono (uid pid : String) (page : List PlaidTxn)
    {tid : String} :
    ∀ s : SyncState, extIdPresent s tid →
      extIdPresent (applyAddedPage s uid pid page) tid := by
  induction page with
  | nil => intro s h; exact h
  | cons txn rest ih =>
    intro s h
    obtain ⟨t, ht, hid⟩ := h
    exact ih _ ⟨t, added_mono s uid pid txn ht, hid⟩

lemma applyAddedPage_invariant (uid pid : String) (page : List PlaidTxn) :
    ∀ s : SyncState, ∀ txn ∈ page,
      txn.pending = true ∨
        extIdPresent (applyAddedPage s uid pid page) txn.transaction_id ∨
        (applyAddedPage s uid pid page).bankAccounts.find? (fun b =>
          b.plaidAccountId = txn.account_id && b.plaidItemId = pid) = none := by
  induction page with
  | nil => intro s txn h; simp at h
  | cons hd rest ih =>
    intro s txn hmem
    have hstep : applyAddedPage s uid pid (hd :: rest) =
        applyAddedPage (_process_added_transaction s uid pid hd).1 uid pid rest :=
      rfl
    rcases List.mem_cons.mp hmem with h1 | h2
    · subst h1
      by_cases hp : txn.pending = true
      · exact Or.inl hp
      · cases hbk : s.bankAccounts.find? (fun b =>
            b.plaidAccountId = txn.account_id && b.plaidItemId = pid) with
        | none =>
          refine Or.inr (Or.inr ?_)
          rw [hstep, applyAddedPage_bankAccounts, added_bankAccounts]
          exact hbk
        | some b0 =>
          refine Or.inr (Or.inl ?_)
          rw [hstep]
          refine applyAddedPage_mono uid pid rest _ ?_
          exact added_present s uid pid txn (by simpa using hp)
            (by rw [hbk]; exact fun hc => Option.noConfusion hc)
    · exact ih _ txn h2

lemma applyAddedPage_fixpoint (uid pid : String) (page : List PlaidTxn) :
    ∀ s : SyncState,
      (∀ txn ∈ page,
        txn.pending = true ∨ extIdPresent s txn.transaction_id ∨
          s.bankAccounts.find? (fun b =>
            b.plaidAccountId = txn.account_id && b.plaidItemId = pid) = none) →
      applyAddedPage s uid pid page = s := by
  induction page with
  | nil => intro s _; rfl
  | cons hd rest ih =>
    intro s hall
    have hnoop : (_process_added_transaction s uid pid hd).1 = s := by
      rcases hall hd (List.mem_cons_self _ _) with h1 | h2 | h3
      · exact added_noop_pending s uid pid hd h1
      · exact added_noop_present s uid pid hd h2
      · exact added_noop_nobank s uid pid hd h3
    show applyAddedPage (_process_added_transaction s uid pid hd).1 uid pid rest = s
    rw [hnoop]
    exact ih s (fun txn h => hall txn (List.mem_cons_of_mem _ h))

/-- C4: `_process_added_transaction` inserts only entries that are not
pending and whose external id has no local transaction yet, and applying
the same added page a second time leaves the state unchanged
(page application is idempotent). -/
theorem _process_added_transaction_dedup_idempotent
    (s : SyncState) (uid pid : String) (txn : PlaidTxn) (page : List PlaidTxn) :
    (∀ t, (_process_added_transaction s uid pid txn).2 = some t →
        txn.pending = false ∧
          s.transactions.find?
            (fun x => x.plaidTransactionId = txn.transaction_id) = none) ∧
      applyAddedPage (applyAddedPage s uid pid page) uid pid page =
        applyAddedPage s uid pid page := by
  constructor
  · intro t h
    unfold _process_added_transaction at h
    by_cases hp : txn.pending = true
    · rw [if_pos hp] at h
      simp at h
    · rw [if_neg hp] at h
      cases hdup : s.transactions.find?
          (fun x => x.plaidTransactionId = txn.transaction_id) with
      | some t0 => rw [hdup] at h; simp at h
      | none =>
        exact ⟨by simpa using hp, rfl⟩
  · exact applyAddedPage_fixpoint uid pid page _
      (fun txn h => applyAddedPage_invariant uid pid page s txn h)

/-- Feed entry for the C4 witness. -/
def addedTxnW : PlaidTxn :=
  ⟨"pt9", "acc1", false, some "Corner Shop", "CORNER SHOP LLC", -7/2, 10,
    some ["Food"]⟩

/-- Sync state for the C4 witness: one known bank account, no
transactions. -/
def addedStateW : SyncState := ⟨[], [], [⟨"b1", "acc1", "item1"⟩], 0⟩

/-- C4 witness: the theorem applied at a concrete one-entry page. -/
theorem _process_added_transaction_dedup_idempotent_witness :
    (∀ t, (_process_added_transaction addedStateW "u1" "item1" addedTxnW).2 =
          some t →
        addedTxnW.pending = false ∧
          addedStateW.transactions.find?
            (fun x => x.plaidTransactionId = addedTxnW.transaction_id) = none) ∧
      applyAddedPage (applyAddedPage addedStateW "u1" "item1" [addedTxnW])
          "u1" "item1" [addedTxnW] =
        applyAddedPage addedStateW "u1" "item1" [addedTxnW] :=
  _process_added_transaction_dedup_idempotent addedStateW "u1" "item1"
    addedTxnW [addedTxnW]

/-- Sync state with a transaction whose linked donation is final
(COMPLETED). -/
def remState : SyncState :=
  ⟨[⟨"t1", "u1", "b1", "pt1", "SHOP", "SHOP", 5, 0, [],
      TransactionStatus.DONATED, none⟩],
    [⟨"d1", "u1", none, some "t1", "ch1", "slug", "Name", 1,
      DonationStatus.COMPLETED, none, none⟩],
    [], 0⟩

/-- C9, counterexample: removal of the transaction also deletes its linked
donation although that donation is final (COMPLETED), contradicting the
claim that a linked donation is deleted only when it is non-final. -/
theorem _process_removed_transaction_deletes_final_donation :
    (_process_removed_transaction remState (some "pt1")).1.donations = [] ∧
      (_process_removed_transaction remState (some "pt1")).2 = true ∧
      (remState.donations.map (fun d => d.status)) =
        [DonationStatus.COMPLETED] := by
  refine ⟨?_, ?_, ?_⟩ <;>
    simp +decide [_process_removed_transaction, remState]

/-- C9 witness: the amended theorem applied to the concrete one-transaction
state. -/
theorem _process_removed_transaction_spec_witness :
    (remState.transactions.find? (fun t => t.plaidTransactionId = "pt1") = none →
        _process_removed_transaction remState (some "pt1") = (remState, false)) ∧
      (∀ t, remState.transactions.find?
            (fun x => x.plaidTransactionId = "pt1") = some t →
        (_process_removed_transaction remState (some "pt1")).2 = true ∧
          (∀ d ∈ remState.donations, d.transactionId = some t.id →
            d ∉ (_process_removed_transaction remState (some "pt1")).1.donations) ∧
          (∀ d ∈ remState.donations, d.transactionId ≠ some t.id →
            d ∈ (_process_removed_transaction remState (some "pt1")).1.donations) ∧
          (∀ x ∈ remState.transactions, x.id = t.id →
            x ∉ (_process_removed_transaction remState (some "pt1")).1.transactions) ∧
          (∀ x ∈ remState.transactions, x.id ≠ t.id →
            x ∈ (_process_removed_transaction remState (some "pt1")).1.transactions)) ∧
      _process_removed_transaction remState none = (remState, false) :=
  _process_removed_transaction_spec remState "pt1" (by decide)

/-! ## Webhook event state machine

Embeds `handle_plaid_webhook` and `retry_failed_webhooks` from
`src/backend/app/jobs/webhooks.py`.  The dispatched job handlers
(`_handle_transactions_webhook`, `_handle_item_webhook`) act on the rest of
the database and the outside world; they are abstracted to oracles over an
abstract world type that either return an updated world or raise.  The
transient PROCESSING write before dispatch is overwritten on both exits
and is subsumed in the final states. -/

/-- Row of the `WebhookEvent` table; the payload is represented by the
fields the handler reads, and `processed` records whether `processedAt`
has been stamped. -/
structure WebhookEvent where
  id : String
  source : String
  webhookType : Option String
  webhookCode : Option String
  itemId : Option String
  status : WebhookStatus
  error : Option String
  retryCount : Nat
  processed : Bool
  createdAt : ℤ
deriving Repr, DecidableEq

/-- Outcome dictionary of `handle_plaid_webhook` when it does not raise. -/
inductive WebhookCallResult
  | skipped (reason : String)
  | success
deriving Repr, DecidableEq

/-- String value of a status enum member, as `status.value`. -/
def statusValue : WebhookStatus → String
  | WebhookStatus.PENDING => "PENDING"
  | WebhookStatus.PROCESSING => "PROCESSING"
  | WebhookStatus.COMPLETED => "COMPLETED"
  | WebhookStatus.FAILED => "FAILED"

/-- Webhook tables plus an abstract world acted on by the dispatched
handlers; `plaidItems` lists (external item id, internal id) pairs. -/
structure WebhookState (W : Type) where
  events : List WebhookEvent
  plaidItems : List (String × String)
  world : W
deriving Repr, DecidableEq

/-- Replacement of the row with the same id, modelling an in-place ORM
update of a fetched `WebhookEvent` object. -/
def updateEvent (events : List WebhookEvent) (e : WebhookEvent) :
    List WebhookEvent :=
  events.map (fun x => if x.id = e.id then e else x)

/-- Event row after a successful dispatch: COMPLETED with the processed
time stamped. -/
def completedEvent (e : WebhookEvent) : WebhookEvent :=
  { e with status := WebhookStatus.COMPLETED, processed := true }

/-- Event row after a failed dispatch: FAILED with the error stored and the
retry count incremented. -/
def failedEvent (e : WebhookEvent) (msg : String) : WebhookEvent :=
  { e with status := WebhookStatus.FAILED, error := some msg,
           retryCount := e.retryCount + 1 }

/-- Embeds `handle_plaid_webhook(db, webhook_event_id)`: a missing event
raises; a non-PENDING event is skipped with its status as the reason;
otherwise the event moves to PROCESSING, the payload's type selects the
handler (an unknown type yields an unhandled result without raising), and
the event ends COMPLETED with the processed time stamped on success, or
FAILED with the error stored and the retry count incremented, re-raising,
when the handler (or the Plaid-item lookup) raises. -/
def handle_plaid_webhook {W : Type}
    (handleTransactions handleItem :
      String → Option String → W → Except String W)
    (s : WebhookState W) (webhook_event_id : String) :
    WebhookState W × Except String WebhookCallResult :=
  match s.events.find? (fun e => e.id = webhook_event_id) with
  | none => (s, Except.error ("Webhook event not found: " ++ webhook_event_id))
  | some event =>
    if ¬ event.status = WebhookStatus.PENDING then
      (s, Except.ok (WebhookCallResult.skipped (statusValue event.status)))
    else
      let inner : Except String W :=
        match event.itemId.bind
            (fun iid => s.plaidItems.find? (fun p => p.1 = iid)) with
        | none => Except.error "Plaid item not found"
        | some p =>
          if event.webhookType = some "TRANSACTIONS" then
            handleTransactions p.2 event.webhookCode s.world
          else if event.webhookType = some "ITEM" then
            handleItem p.2 event.webhookCode s.world
          else Except.ok s.world
      match inner with
      | Except.ok w' =>
        ({ s with events := updateEvent s.events (completedEvent event),
                  world := w' },
          Except.ok WebhookCallResult.success)
      | Except.error msg =>
        ({ s with events := updateEvent s.events (failedEvent event msg) },
          Except.error msg)

/-- C7: for an existing webhook event, `handle_plaid_webhook` is a pure
skip (state unchanged, skipped result carrying the current status) unless
the event is PENDING; a PENDING event ends either COMPLETED with the
processed time stamped and an ok result, or FAILED with the error message
stored, the retry count incremented by exactly one, and the same error
re-raised to the caller. -/
theorem handle_plaid_webhook_state_machine {W : Type}
    (hT hI : String → Option String → W → Except String W)
    (s : WebhookState W) (eid : String) (e : WebhookEvent)
    (he : s.events.find? (fun x => x.id = eid) = some e) :
    (¬ e.status = WebhookStatus.PENDING →
        handle_plaid_webhook hT hI s eid =
          (s, Except.ok (WebhookCallResult.skipped (statusValue e.status)))) ∧
      (e.status = WebhookStatus.PENDING →
        (∃ w', handle_plaid_webhook hT hI s eid =
            ({ s with events := updateEvent s.events (completedEvent e),
                      world := w' },
              Except.ok WebhookCallResult.success)) ∨
        (∃ msg, handle_plaid_webhook hT hI s eid =
            ({ s with events := updateEvent s.events (failedEvent e msg) },
              Except.error msg))) := by
  constructor
  · intro hne
    simp only [handle_plaid_webhook, he]
    rw [if_pos hne]
  · intro hpend
    simp only [handle_plaid_webhook, he]
    rw [if_neg (by simp [hpend])]
    cases hinner : (match e.itemId.bind
        (fun iid => s.plaidItems.find? (fun p => p.1 = iid)) with
      | none => (Except.error "Plaid item not found" : Except String W)
      | some p =>
        if e.webhookType = some "TRANSACTIONS" then
          hT p.2 e.webhookCode s.world
        else if e.webhookType = some "ITEM" then
          hI p.2 e.webhookCode s.world
        else Except.ok s.world) with
    | ok w' =>
      left
      exact ⟨w', rfl⟩
    | error msg =>
      right
      exact ⟨msg, rfl⟩

/-- PENDING plaid event used by the C7 witness. -/
def pendingEv : WebhookEvent :=
  ⟨"w1", "plaid", some "ITEM", some "ERROR", some "item1",
    WebhookStatus.PENDING, none, 0, false, 0⟩

/-- Webhook state used by the C7 witness. -/
def pendingSt : WebhookState Unit := ⟨[pendingEv], [("item1", "p1")], ()⟩

/-- C7 witness: the theorem applied to a concrete PENDING event with an
always-succeeding handler. -/
theorem handle_plaid_webhook_state_machine_witness :
    (¬ pendingEv.status = WebhookStatus.PENDING →
        handle_plaid_webhook (fun _ _ w => Except.ok w) (fun _ _ w => Except.ok w)
            pendingSt "w1" =
          (pendingSt,
            Except.ok (WebhookCallResult.skipped (statusValue pendingEv.status)))) ∧
      (pendingEv.status = WebhookStatus.PENDING →
        (∃ w', handle_plaid_webhook (fun _ _ w => Except.ok w)
              (fun _ _ w => Except.ok w) pendingSt "w1" =
            ({ pendingSt with
                events := updateEvent pendingSt.events (completedEvent pendingEv),
                world := w' },
              Except.ok WebhookCallResult.success)) ∨
        (∃ msg, handle_plaid_webhook (fun _ _ w => Except.ok w)
              (fun _ _ w => Except.ok w) pendingSt "w1" =
            ({ pendingSt with
                events := updateEvent pendingSt.events (failedEvent pendingEv msg) },
              Except.error msg))) :=
  handle_plaid_webhook_state_machine _ _ pendingSt "w1" pendingEv (by decide)

/-- Insertion into a list kept ascending by creation time. -/
def insertByCreated (e : WebhookEvent) : List WebhookEvent → List WebhookEvent
  | [] => [e]
  | x :: xs =>
    if e.createdAt < x.createdAt then e :: x :: xs
    else x :: insertByCreated e xs

/-- Ascending sort by creation time, modelling `order_by(createdAt.asc())`. -/
def sortByCreated (l : List WebhookEvent) : List WebhookEvent :=
  l.foldr insertByCreated []

/-- Embeds the selection query of `retry_failed_webhooks`: plaid-source
FAILED events with a retry count strictly below the bound, oldest first,
limited to 50. -/
def retrySelect (events : List WebhookEvent) (max_retries : Nat) :
    List WebhookEvent :=
  (sortByCreated (events.filter (fun e =>
    e.source = "plaid" && e.status = WebhookStatus.FAILED &&
      decide (e.retryCount < max_retries)))).take 50

/-- Event row reset for a retry: status back to PENDING. -/
def resetToPending (e : WebhookEvent) : WebhookEvent :=
  { e with status := WebhookStatus.PENDING }

/-- Embeds `retry_failed_webhooks(db, max_retries)`: each selected event is
reset to PENDING and re-handled; an exception from one retry is recorded in
that event's per-event result entry and the loop continues. -/
def retry_failed_webhooks {W : Type}
    (hT hI : String → Option String → W → Except String W)
    (s : WebhookState W) (max_retries : Nat) :
    WebhookState W × List (String × Bool) :=
  let failed_events := retrySelect s.events max_retries
  failed_events.foldl
    (fun acc event =>
      let s1 :=
        { acc.1 with
            events := updateEvent acc.1.events (resetToPending event) }
      let out := handle_plaid_webhook hT hI s1 event.id
      match out.2 with
      | Except.ok _ => (out.1, acc.2 ++ [(event.id, true)])
      | Except.error _ => (out.1, acc.2 ++ [(event.id, false)]))
    (s, [])

lemma mem_insertByCreated {a e : WebhookEvent} :
    ∀ {l : List WebhookEvent}, a ∈ insertByCreated e l → a = e ∨ a ∈ l := by
  intro l
  induction l with
  | nil =>
    intro h
    simpa [insertByCreated] using h
  | cons x xs ih =>
    intro h
    rw [insertByCreated] at h
    split at h
    · rcases List.mem_cons.mp h with h1 | h2
      · exact Or.inl h1
      · exact Or.inr h2
    · rcases List.mem_cons.mp h with h1 | h2
      · exact Or.inr (by rw [h1]; exact List.mem_cons_self _ _)
      · rcases ih h2 with h3 | h4
        · exact Or.inl h3
        · exact Or.inr (List.mem_cons_of_mem _ h4)

lemma mem_sortByCreated {a : WebhookEvent} :
    ∀ {l : List WebhookEvent}, a ∈ sortByCreated l → a ∈ l := by
  intro l
  induction l with
  | nil => intro h; simp [sortByCreated] at h
  | cons x xs ih =>
    intro h
    have h' : a ∈ insertByCreated x (sortByCreated xs) := h
    rcases mem_insertByCreated h' with h1 | h2
    · exact h1 ▸ List.mem_cons_self _ _
    · exact List.mem_cons_of_mem _ (ih h2)

lemma pairwise_insertByCreated {e : WebhookEvent} :
    ∀ {l : List WebhookEvent},
      l.Pairwise (fun a b => a.createdAt ≤ b.createdAt) →
      (insertByCreated e l).Pairwise (fun a b => a.createdAt ≤ b.createdAt) := by
  intro l
  induction l with
  | nil => intro _; simp [insertByCreated]
  | cons x xs ih =>
    intro h
    rw [List.pairwise_cons] at h
    rw [insertByCreated]
    split
    · next hlt =>
      rw [List.pairwise_cons]
      constructor
      · intro b hb
        rcases List.mem_cons.mp hb with h1 | h2
        · rw [h1]; exact le_of_lt hlt
        · exact le_trans (le_of_lt hlt) (h.1 b h2)
      · rw [List.pairwise_cons]
        exact h
    · next hge =>
      rw [List.pairwise_cons]
      constructor
      · intro b hb
        rcases mem_insertByCreated hb with h1 | h2
        · rw [h1]; exact le_of_not_lt hge
        · exact h.1 b h2
      · exact ih h.2

lemma pairwise_sortByCreated :
    ∀ (l : List WebhookEvent),
      (sortByCreated l).Pairwise (fun a b => a.createdAt ≤ b.createdAt) := by
  intro l
  induction l with
  | nil => simp [sortByCreated]
  | cons x xs ih => exact pairwise_insertByCreated ih

lemma retry_results_ids {W : Type}
    (hT hI : String → Option String → W → Except String W) :
    ∀ (sel : List WebhookEvent) (s0 : WebhookState W)
      (acc : List (String × Bool)),
      (sel.foldl
        (fun acc event =>
          let s1 :=
            { acc.1 with
                events := updateEvent acc.1.events (resetToPending event) }
          let out := handle_plaid_webhook hT hI s1 event.id
          match out.2 with
          | Except.ok _ => (out.1, acc.2 ++ [(event.id, true)])
          | Except.error _ => (out.1, acc.2 ++ [(event.id, false)]))
        (s0, acc)).2.map Prod.fst = acc.map Prod.fst ++ sel.map (fun e => e.id) := by
  intro sel
  induction sel with
  | nil => intro s0 acc; simp
  | cons e rest ih =>
    intro s0 acc
    rw [List.foldl_cons]
    cases hout : (handle_plaid_webhook hT hI
        { s0 with events := updateEvent s0.events (resetToPending e) }
        e.id).2 with
    | ok r =>
      simp only [hout]
      rw [ih]
      simp
    | error msg =>
      simp only [hout]
      rw [ih]
      simp

/-- C8 (amended): the retry job selects at most 50 events, all of them
plaid-source FAILED events with a retry count strictly below the bound; an
event at or above the bound is never selected regardless of age; the
selection is ordered oldest first; and the loop produces one per-event
result entry per selected event, in order, so one failing retry aborts
nothing. -/
theorem retry_failed_webhooks_spec {W : Type}
    (hT hI : String → Option String → W → Except String W)
    (s : WebhookState W) (max_retries : Nat) :
    (retrySelect s.events max_retries).length ≤ 50 ∧
      (∀ e ∈ retrySelect s.events max_retries,
        e.source = "plaid" ∧ e.status = WebhookStatus.FAILED ∧
          e.retryCount < max_retries) ∧
      (∀ e : WebhookEvent, max_retries ≤ e.retryCount →
        e ∉ retrySelect s.events max_retries) ∧
      (retrySelect s.events max_retries).Pairwise
        (fun a b => a.createdAt ≤ b.createdAt) ∧
      (retry_failed_webhooks hT hI s max_retries).2.map Prod.fst =
        (retrySelect s.events max_retries).map (fun e => e.id) := by
  have hmemsel : ∀ e ∈ retrySelect s.events max_retries,
      e.source = "plaid" ∧ e.status = WebhookStatus.FAILED ∧
        e.retryCount < max_retries := by
    intro e he
    have h1 : e ∈ sortByCreated (s.events.filter (fun e =>
        e.source = "plaid" && e.status = WebhookStatus.FAILED &&
          decide (e.retryCount < max_retries))) :=
      (List.take_subset _ _) he
    have h2 := mem_sortByCreated h1
    have h3 := (List.mem_filter.mp h2).2
    simp only [Bool.and_eq_true, decide_eq_true_eq] at h3
    exact ⟨by simpa using h3.1.1, by simpa using h3.1.2, h3.2⟩
  refine ⟨?_, hmemsel, ?_, ?_, ?_⟩
  · exact List.length_take_le _ _
  · intro e hcap hmem
    exact absurd (hmemsel e hmem).2.2 (not_lt.mpr hcap)
  · exact (pairwise_sortByCreated _).sublist (List.take_sublist _ _)
  · have := retry_results_ids hT hI (retrySelect s.events max_retries) s []
    simpa [retry_failed_webhooks] using this

/-- FAILED non-plaid event below the retry bound. -/
def stripeEv : WebhookEvent :=
  ⟨"w2", "stripe", some "payment_intent.succeeded", none, none,
    WebhookStatus.FAILED, some "boom", 0, false, 0⟩

/-- Webhook state holding only the stripe event. -/
def stripeSt : WebhookState Unit := ⟨[stripeEv], [], ()⟩

/-- C8, counterexample: a FAILED event with retryCount 0 < 3 that the claim
says is selected and reset is in fact never selected, because the query
also filters on source equal to plaid; the state is returned unchanged
with no per-event result. -/
theorem retry_failed_webhooks_skips_non_plaid :
    stripeEv.status = WebhookStatus.FAILED ∧ stripeEv.retryCount < 3 ∧
      retrySelect [stripeEv] 3 = [] ∧
      retry_failed_webhooks (fun _ _ w => Except.ok w)
        (fun _ _ w => Except.ok w) stripeSt 3 = (stripeSt, []) := by
  refine ⟨rfl, by decide, by decide, by decide⟩

/-- Plaid FAILED event below the retry bound, for the C8 witness. -/
def plaidFailedEv : WebhookEvent :=
  ⟨"w3", "plaid", some "ITEM", some "ERROR", some "item1",
    WebhookStatus.FAILED, some "previous error", 1, false, 5⟩

/-- Webhook state for the C8 witness. -/
def plaidFailedSt : WebhookState Unit :=
  ⟨[plaidFailedEv], [("item1", "p1")], ()⟩

/-- C8 witness: the amended theorem applied at a concrete state with one
plaid FAILED event and the bound 3. -/
theorem retry_failed_webhooks_spec_witness :
    (retrySelect plaidFailedSt.events 3).length ≤ 50 ∧
      (∀ e ∈ retrySelect plaidFailedSt.events 3,
        e.source = "plaid" ∧ e.status = WebhookStatus.FAILED ∧
          e.retryCount < 3) ∧
      (∀ e : WebhookEvent, 3 ≤ e.retryCount →
        e ∉ retrySelect plaidFailedSt.events 3) ∧
      (retrySelect plaidFailedSt.events 3).Pairwise
        (fun a b => a.createdAt ≤ b.createdAt) ∧
      (retry_failed_webhooks (fun _ _ w => Except.ok w)
          (fun _ _ w => Except.ok w) plaidFailedSt 3).2.map Prod.fst =
        (retrySelect plaidFailedSt.events 3).map (fun e => e.id) :=
  retry_failed_webhooks_spec (fun _ _ w => Except.ok w)
    (fun _ _ w => Except.ok w) plaidFailedSt 3

/-! ## Distribution of a batch to charities

Embeds `distribute_donations_to_charities` from
`src/backend/app/jobs/process_donations.py`.  The Change API is abstracted
to two oracles: an EIN lookup returning the id of the matching nonprofit,
and a donation-creation call that either returns the response id or raises
a `ChangeApiError` message.  The charity relationship of a donation (a
non-null foreign key) is a total lookup function. -/

/-- Python truthiness of an optional string: `None` and the empty string
are falsy. -/
def pyTruthyOptStr : Option String → Bool
  | none => false
  | some s => s ≠ ""

/-- Resolution of the Change nonprofit id, as the loop body computes it:
the stored attribute read with a `None`-defaulting `getattr` when truthy,
else an EIN lookup when the charity has a truthy EIN. -/
def resolveChangeNonprofitId (einLookup : String → Option String)
    (charity : Charity) : Option String :=
  if pyTruthyOptStr charity.changeNonprofitId = false &&
      pyTruthyOptStr charity.ein then
    match charity.ein with
    | some ein => einLookup ein
    | none => none
  else charity.changeNonprofitId

/-- Per-donation body of the distribution loop: unresolvable charities
mark the donation FAILED with a reason and report failure; otherwise the
disbursement is requested, recording the provider id and PROCESSING on
success, or FAILED with the error message on a `ChangeApiError`. -/
def distribute_one (einLookup : String → Option String)
    (createDonation : String → Donation → Except String (Option String))
    (charityOf : String → Charity) (d : Donation) :
    Donation × Bool :=
  let charity := charityOf d.charityId
  let resolved := resolveChangeNonprofitId einLookup charity
  if pyTruthyOptStr resolved = false then
    ({ d with status := DonationStatus.FAILED,
              errorMessage := some "Charity not available for auto-donation" },
      false)
  else
    match resolved with
    | none =>
      ({ d with status := DonationStatus.FAILED,
                errorMessage := some "Charity not available for auto-donation" },
        false)
    | some cid =>
      match createDonation cid d with
      | Except.ok change_id =>
        ({ d with changeId := change_id,
                  status := DonationStatus.PROCESSING }, true)
      | Except.error e =>
        ({ d with status := DonationStatus.FAILED,
                  errorMessage := some e }, false)

/-- Embeds `distribute_donations_to_charities(db, batch_id)` on the
batch's donation rows: every donation is processed in list order and the
batch row itself is never written. -/
def distribute_donations_to_charities (einLookup : String → Option String)
    (createDonation : String → Donation → Except String (Option String))
    (charityOf : String → Charity)
    (batch : DonationBatch) (donations : List Donation) :
    DonationBatch × List Donation × List (String × Bool) :=
  let processed :=
    donations.map (fun d => distribute_one einLookup createDonation charityOf d)
  (batch, processed.map Prod.fst,
    processed.map (fun p => (p.1.id, p.2)))

/-- C6: distribution processes every donation of the batch (continuing
past failures), never changes the batch row (in particular its status);
a donation whose charity resolves to no truthy disbursement id ends FAILED
with the reason recorded, and a donation whose disbursement request
succeeds ends PROCESSING with the provider's id recorded. -/
theorem distribute_donations_partial_failure
    (einLookup : String → Option String)
    (createDonation : String → Donation → Except String (Option String))
    (charityOf : String → Charity)
    (batch : DonationBatch) (donations : List Donation) :
    (distribute_donations_to_charities einLookup createDonation charityOf
        batch donations).1 = batch ∧
      (distribute_donations_to_charities einLookup createDonation charityOf
        batch donations).2.1.length = donations.length ∧
      (distribute_donations_to_charities einLookup createDonation charityOf
        batch donations).2.2.length = donations.length ∧
      (∀ d ∈ donations,
        pyTruthyOptStr (resolveChangeNonprofitId einLookup
            (charityOf d.charityId)) = false →
          { d with status := DonationStatus.FAILED,
                   errorMessage :=
                     some "Charity not available for auto-donation" } ∈
            (distribute_donations_to_charities einLookup createDonation
              charityOf batch donations).2.1) ∧
      (∀ d ∈ donations, ∀ cid,
        resolveChangeNonprofitId einLookup (charityOf d.charityId) =
            some cid → cid ≠ "" →
          ∀ rid, createDonation cid d = Except.ok rid →
            { d with changeId := rid,
                     status := DonationStatus.PROCESSING } ∈
              (distribute_donations_to_charities einLookup createDonation
                charityOf batch donations).2.1) := by
  refine ⟨rfl, by simp [distribute_donations_to_charities], by
    simp [distribute_donations_to_charities], ?_, ?_⟩
  · intro d hd hfalse
    have hone : (distribute_one einLookup createDonation charityOf d).1 =
        { d with status := DonationStatus.FAILED,
                 errorMessage :=
                   some "Charity not available for auto-donation" } := by
      simp only [distribute_one]
      rw [if_pos hfalse]
    simp only [distribute_donations_to_charities, List.map_map, List.mem_map]
    exact ⟨d, hd, hone⟩
  · intro d hd cid hres hne rid hcreate
    have hone : (distribute_one einLookup createDonation charityOf d).1 =
        { d with changeId := rid, status := DonationStatus.PROCESSING } := by
      simp only [distribute_one]
      rw [if_neg (by simp [hres, pyTruthyOptStr, hne]), hres]
      simp only [hcreate]
    simp only [distribute_donations_to_charities, List.map_map, List.mem_map]
    exact ⟨d, hd, hone⟩

/-! ## Weekly batch aggregation

Embeds `create_weekly_batches` from
`src/backend/app/jobs/process_donations.py`.  The group total is computed
by the source as `sum(float(d.amount) for d in donations)`, a left-to-right
binary64 floating-point accumulation; this is modelled exactly (`fl`,
`pyFloatSumQ` below), because at the 1.00 floor the float total can differ
from the exact decimal total (ten donations of 0.10 accumulate to
(2^53 - 1)/2^53 < 1).  The conversion `Decimal(str(total_amount))` that the
source stores into batch rows — the shortest-round-trip decimal rendering
of the float — is abstracted as a function parameter `decStr` of the job;
the floor comparison `total_amount < 1.0` itself is on the raw float and is
modelled on the raw modelled float.  `get_week_start` is abstracted to the
week-of date argument; the generated cuid of a fresh batch is a function of
the owning user, fresh and injective by hypothesis in the theorems. -/

/-- Tables touched by the batch aggregation job. -/
structure BatchState where
  users : List User
  transactions : List Transaction
  donations : List Donation
  batches : List DonationBatch
deriving Repr, DecidableEq

/-- Row of the per-user results list of `create_weekly_batches`. -/
structure BatchResult where
  userId : String
  batchId : String
  donationCount : Nat
  totalAmount : ℚ
deriving Repr, DecidableEq

/-- The snapshot predicate of the aggregation query: PENDING donations
with no batch assignment. -/
def isPendingUnbatched (d : Donation) : Bool :=
  d.status = DonationStatus.PENDING && d.batchId = none

/-- Keys of a Python dict built by insertion, in first-occurrence order. -/
def keysInOrder : List String → List String
  | [] => []
  | k :: rest => k :: keysInOrder (rest.filter (fun x => ¬ x = k))
termination_by l => l.length
decreasing_by
  exact Nat.lt_succ_of_le (List.length_filter_le _ _)

/-- The group of a user: that user's pending unbatched donations, in list
order. -/
def userGroup (s : BatchState) (u : String) : List Donation :=
  s.donations.filter (fun d => isPendingUnbatched d && d.userId = u)

/-- The binary64 value nearest to a positive rational: round to 53
significant bits, to nearest with ties to the even significand.  The
exponent range is unbounded (every value this job computes is far from
binary64 overflow and subnormal territory). -/
def flPos (y : ℚ) : ℚ :=
  let e : ℤ := Int.log 2 y
  ((roundHalfEvenZ (y * 2 ^ ((52 : ℤ) - e)) : ℤ) : ℚ) * 2 ^ (e - 52)

/-- Python `float(x)`: the nearest binary64 value of `x`, rounding to
nearest with ties to even, symmetric in sign. -/
def fl (x : ℚ) : ℚ :=
  if x = 0 then 0 else if 0 < x then flPos x else - flPos (-x)

/-- Python `sum(float(a) for a in l)`: left-to-right accumulation starting
from zero, every element converted to binary64 and every partial sum
rounded back to binary64. -/
def pyFloatSumQ (l : List ℚ) : ℚ :=
  l.foldl (fun acc a => fl (acc + fl a)) 0

/-- Group total as the source computes it: the binary floating-point sum
`sum(float(d.amount) for d in donations)` of the group's amounts. -/
def groupTotal (s : BatchState) (u : String) : ℚ :=
  pyFloatSumQ ((userGroup s u).map (fun d => d.amount))

/-- Replacement of the row with the same id, modelling an in-place ORM
update of a fetched `DonationBatch` object. -/
def setBatch (bs : List DonationBatch) (b : DonationBatch) :
    List DonationBatch :=
  bs.map (fun x => if x.id = b.id then b else x)

/-- Attachment of a user's grouped donations to a batch id. -/
def attachGroup (ds : List Donation) (u bid : String) : List Donation :=
  ds.map (fun d =>
    if isPendingUnbatched d && d.userId = u then { d with batchId := some bid }
    else d)

/-- Marking of the transactions linked from a set of donations as BATCHED,
as the bulk `update` statement does. -/
def markBatched (ts : List Transaction) (tids : List String) :
    List Transaction :=
  ts.map (fun t =>
    if tids.contains t.id then { t with status := TransactionStatus.BATCHED }
    else t)

/-- Body of the per-user loop of `create_weekly_batches`: skip when the
user is missing (the foreign key guarantees presence), has auto-donate
disabled, or the float-accumulated group total is below the 1.00 floor
(the source compares the raw float against 1.0); otherwise extend the
existing batch of that user and week or create a fresh PENDING batch —
the stored amount is `Decimal(str(total_amount))`, i.e. `decStr total` —
then attach the group and mark its source transactions BATCHED.  The
result entry keeps the raw float total, as the source's result dict does. -/
def processUserGroup (s : BatchState) (week_of : ℤ) (gen : String → String)
    (decStr : ℚ → ℚ) (u : String) : BatchState × Option BatchResult :=
  let group := userGroup s u
  match s.users.find? (fun x => x.id = u) with
  | none => (s, none)
  | some user =>
    if user.autoDonateEnabled = false then (s, none)
    else
      let total := groupTotal s u
      if total < 1 then (s, none)
      else
        let found := s.batches.find?
          (fun b => b.userId = u && b.weekOf = week_of)
        let step : List DonationBatch × String :=
          match found with
          | some batch =>
            (setBatch s.batches { batch with totalAmount :=
              batch.totalAmount + (decStr total) }, batch.id)
          | none =>
            (s.batches ++
              [⟨gen u, u, week_of, decStr total, DonationBatchStatus.PENDING⟩], gen u)
        let bid := step.2
        ({ s with
            batches := step.1,
            donations := attachGroup s.donations u bid,
            transactions := markBatched s.transactions
              (group.filterMap (fun d => d.transactionId)) },
          some ⟨u, bid, group.length, total⟩)

/-- One iteration of the per-user loop, threading the state and the
results list. -/
def batchStep (week_of : ℤ) (gen : String → String) (decStr : ℚ → ℚ)
    (acc : BatchState × List BatchResult) (u : String) :
    BatchState × List BatchResult :=
  let out := processUserGroup acc.1 week_of gen decStr u
  (out.1, acc.2 ++ (match out.2 with | some e => [e] | none => []))

/-- Embeds `create_weekly_batches(db)`: group the pending unbatched
donations by user in first-occurrence order and fold the per-user body,
collecting one result entry per processed group. -/
def create_weekly_batches (s : BatchState) (week_of : ℤ)
    (gen : String → String) (decStr : ℚ → ℚ) : BatchState × List BatchResult :=
  let pending := s.donations.filter isPendingUnbatched
  let keys := keysInOrder (pending.map (fun d => d.userId))
  keys.foldl (batchStep week_of gen decStr) (s, [])

lemma mem_keysInOrder {x : String} :
    ∀ {l : List String}, x ∈ keysInOrder l ↔ x ∈ l := by
  intro l
  induction l using keysInOrder.induct with
  | case1 => simp [keysInOrder]
  | case2 k rest ih =>
    rw [keysInOrder]
    constructor
    · intro h
      rcases List.mem_cons.mp h with h1 | h2
      · exact h1 ▸ List.mem_cons_self _ _
      · exact List.mem_cons_of_mem _ (List.mem_of_mem_filter (ih.mp h2))
    · intro h
      rcases List.mem_cons.mp h with h1 | h2
      · exact h1 ▸ List.mem_cons_self _ _
      · by_cases hxk : x = k
        · exact hxk ▸ List.mem_cons_self _ _
        · refine List.mem_cons_of_mem _ (ih.mpr ?_)
          exact List.mem_filter.mpr ⟨h2, by simpa using hxk⟩

lemma nodup_keysInOrder : ∀ (l : List String), (keysInOrder l).Nodup := by
  intro l
  induction l using keysInOrder.induct with
  | case1 => simp [keysInOrder]
  | case2 k rest ih =>
    rw [keysInOrder, List.nodup_cons]
    refine ⟨?_, ih⟩
    intro hk
    have := List.mem_filter.mp (mem_keysInOrder.mp hk)
    simp at this

lemma filter_map_eq {α : Type} (p : α → Bool) (f : α → α) :
    ∀ l : List α, (∀ d ∈ l, p (f d) = p d ∧ (p d = true → f d = d)) →
      (l.map f).filter p = l.filter p := by
  intro l
  induction l with
  | nil => intro _; rfl
  | cons a as ih =>
    intro h
    have ha := h a (List.mem_cons_self _ _)
    rw [List.map_cons]
    by_cases hp : p a = true
    · rw [List.filter_cons_of_pos (by rw [ha.1]; exact hp),
        List.filter_cons_of_pos hp, ha.2 hp,
        ih (fun d hd => h d (List.mem_cons_of_mem _ hd))]
    · have hp' : p a = false := by simpa using hp
      rw [List.filter_cons_of_neg (by rw [ha.1]; simp [hp']),
        List.filter_cons_of_neg (by simp [hp']),
        ih (fun d hd => h d (List.mem_cons_of_mem _ hd))]

lemma find?_map_eq {α : Type} (q : α → Bool) (g : α → α) :
    ∀ l : List α, (∀ x ∈ l, q (g x) = q x ∧ (q x = true → g x = x)) →
      (l.map g).find? q = l.find? q := by
  intro l
  induction l with
  | nil => intro _; rfl
  | cons a as ih =>
    intro h
    have ha := h a (List.mem_cons_self _ _)
    rw [List.map_cons]
    by_cases hq : q a = true
    · rw [List.find?_cons_of_pos _ (by rw [ha.1]; exact hq),
        List.find?_cons_of_pos _ hq, ha.2 hq]
    · have hq' : q a = false := by simpa using hq
      rw [List.find?_cons_of_neg _ (by rw [ha.1]; simp [hq']),
        List.find?_cons_of_neg _ (by simp [hq']),
        ih (fun d hd => h d (List.mem_cons_of_mem _ hd))]

lemma step_users (s : BatchState) (w : ℤ) (gen : String → String) (decStr : ℚ → ℚ) (u : String) :
    ((processUserGroup s w gen decStr u).1).users = s.users := by
  simp only [processUserGroup]
  split
  · rfl
  · split
    · rfl
    · split
      · rfl
      · rfl

lemma step_skip_no_user (s : BatchState) (w : ℤ) (gen : String → String) (decStr : ℚ → ℚ)
    (u : String) (h : s.users.find? (fun x => x.id = u) = none) :
    processUserGroup s w gen decStr u = (s, none) := by
  unfold processUserGroup
  rw [h]

lemma step_skip_disabled (s : BatchState) (w : ℤ) (gen : String → String) (decStr : ℚ → ℚ)
    (u : String) (user : User)
    (hu : s.users.find? (fun x => x.id = u) = some user)
    (hdis : user.autoDonateEnabled = false) :
    processUserGroup s w gen decStr u = (s, none) := by
  simp only [processUserGroup, hu]
  rw [if_pos hdis]

lemma step_skip_below_floor (s : BatchState) (w : ℤ) (gen : String → String) (decStr : ℚ → ℚ)
    (u : String) (user : User)
    (hu : s.users.find? (fun x => x.id = u) = some user)
    (hen : user.autoDonateEnabled = true)
    (hlow : groupTotal s u < 1) :
    processUserGroup s w gen decStr u = (s, none) := by
  simp only [processUserGroup, hu]
  rw [if_neg (by simp [hen]), if_pos hlow]

lemma step_process_extend (s : BatchState) (w : ℤ) (gen : String → String) (decStr : ℚ → ℚ)
    (u : String) (user : User) (b0 : DonationBatch)
    (hu : s.users.find? (fun x => x.id = u) = some user)
    (hen : user.autoDonateEnabled = true)
    (hhigh : ¬ groupTotal s u < 1)
    (hb : s.batches.find? (fun b => b.userId = u && b.weekOf = w) = some b0) :
    processUserGroup s w gen decStr u =
      ({ s with
          batches := setBatch s.batches
            { b0 with totalAmount := b0.totalAmount + decStr (groupTotal s u) },
          donations := attachGroup s.donations u b0.id,
          transactions := markBatched s.transactions
            ((userGroup s u).filterMap (fun d => d.transactionId)) },
        some ⟨u, b0.id, (userGroup s u).length, groupTotal s u⟩) := by
  simp only [processUserGroup, hu]
  rw [if_neg (by simp [hen]), if_neg hhigh]
  simp only [hb]

lemma step_process_create (s : BatchState) (w : ℤ) (gen : String → String) (decStr : ℚ → ℚ)
    (u : String) (user : User)
    (hu : s.users.find? (fun x => x.id = u) = some user)
    (hen : user.autoDonateEnabled = true)
    (hhigh : ¬ groupTotal s u < 1)
    (hb : s.batches.find? (fun b => b.userId = u && b.weekOf = w) = none) :
    processUserGroup s w gen decStr u =
      ({ s with
          batches := s.batches ++
            [⟨gen u, u, w, decStr (groupTotal s u), DonationBatchStatus.PENDING⟩],
          donations := attachGroup s.donations u (gen u),
          transactions := markBatched s.transactions
            ((userGroup s u).filterMap (fun d => d.transactionId)) },
        some ⟨u, gen u, (userGroup s u).length, groupTotal s u⟩) := by
  simp only [processUserGroup, hu]
  rw [if_neg (by simp [hen]), if_neg hhigh]
  simp only [hb]

lemma step_donations_shape (s : BatchState) (w : ℤ) (gen : String → String) (decStr : ℚ → ℚ)
    (v : String) :
    ((processUserGroup s w gen decStr v).1).donations = s.donations ∨
      ∃ bid, ((processUserGroup s w gen decStr v).1).donations =
        attachGroup s.donations v bid := by
  simp only [processUserGroup]
  split
  · exact Or.inl rfl
  · split
    · exact Or.inl rfl
    · split
      · exact Or.inl rfl
      · exact Or.inr ⟨_, rfl⟩

lemma step_transactions_shape (s : BatchState) (w : ℤ) (gen : String → String) (decStr : ℚ → ℚ)
    (v : String) :
    ((processUserGroup s w gen decStr v).1).transactions = s.transactions ∨
      ∃ tids, ((processUserGroup s w gen decStr v).1).transactions =
        markBatched s.transactions tids := by
  simp only [processUserGroup]
  split
  · exact Or.inl rfl
  · split
    · exact Or.inl rfl
    · split
      · exact Or.inl rfl
      · exact Or.inr ⟨_, rfl⟩

lemma step_batches_shape (s : BatchState) (w : ℤ) (gen : String → String) (decStr : ℚ → ℚ)
    (v : String) :
    ((processUserGroup s w gen decStr v).1).batches = s.batches ∨
      (∃ b0, s.batches.find? (fun b => b.userId = v && b.weekOf = w) = some b0 ∧
        ((processUserGroup s w gen decStr v).1).batches =
          setBatch s.batches
            { b0 with totalAmount := b0.totalAmount + decStr (groupTotal s v) }) ∨
      (s.batches.find? (fun b => b.userId = v && b.weekOf = w) = none ∧
        ((processUserGroup s w gen decStr v).1).batches =
          s.batches ++
            [⟨gen v, v, w, decStr (groupTotal s v), DonationBatchStatus.PENDING⟩]) := by
  simp only [processUserGroup]
  split
  · exact Or.inl rfl
  · split
    · exact Or.inl rfl
    · split
      · exact Or.inl rfl
      · cases hb : s.batches.find? (fun b => b.userId = v && b.weekOf = w) with
        | some b0 =>
          refine Or.inr (Or.inl ⟨b0, rfl, ?_⟩)
          simp only [hb]
        | none =>
          refine Or.inr (Or.inr ⟨rfl, ?_⟩)
          simp only [hb]

lemma step_result_shape (s : BatchState) (w : ℤ) (gen : String → String) (decStr : ℚ → ℚ)
    (v : String) :
    ∀ e, (processUserGroup s w gen decStr v).2 = some e → e.userId = v := by
  intro e he
  simp only [processUserGroup] at he
  split at he
  · simp at he
  · split at he
    · simp at he
    · split at he
      · simp at he
      · rw [Option.some_inj] at he
        rw [← he]

lemma mem_attachGroup_fix {d : Donation} {ds : List Donation} {v bid : String}
    (hd : d ∈ ds) (h : (isPendingUnbatched d && d.userId = v) = false) :
    d ∈ attachGroup ds v bid := by
  have : d ∈ ds.map (fun d =>
      if isPendingUnbatched d && d.userId = v then { d with batchId := some bid }
      else d) := List.mem_map.mpr ⟨d, hd, by rw [if_neg (by simp [h])]⟩
  exact this

lemma mem_attachGroup_hit {d : Donation} {ds : List Donation} {v bid : String}
    (hd : d ∈ ds) (h : (isPendingUnbatched d && d.userId = v) = true) :
    { d with batchId := some bid } ∈ attachGroup ds v bid := by
  exact List.mem_map.mpr ⟨d, hd, by rw [if_pos h]⟩

lemma batched_update_fix {t : Transaction}
    (h : t.status = TransactionStatus.BATCHED) :
    ({ t with status := TransactionStatus.BATCHED } : Transaction) = t := by
  cases t
  simp only at h
  rw [h]

lemma mem_markBatched_fix {t : Transaction} {ts : List Transaction}
    {tids : List String} (ht : t ∈ ts)
    (h : t.status = TransactionStatus.BATCHED) :
    t ∈ markBatched ts tids := by
  refine List.mem_map.mpr ⟨t, ht, ?_⟩
  split
  · exact batched_update_fix h
  · rfl

lemma mem_markBatched_hit {t : Transaction} {ts : List Transaction}
    {tids : List String} (ht : t ∈ ts) (h : tids.contains t.id = true) :
    { t with status := TransactionStatus.BATCHED } ∈ markBatched ts tids := by
  exact List.mem_map.mpr ⟨t, ht, by rw [if_pos h]⟩

lemma mem_markBatched_or {t : Transaction} {ts : List Transaction}
    {tids : List String} (ht : t ∈ ts) :
    t ∈ markBatched ts tids ∨
      { t with status := TransactionStatus.BATCHED } ∈ markBatched ts tids := by
  by_cases h : tids.contains t.id = true
  · exact Or.inr (mem_markBatched_hit ht h)
  · refine Or.inl (List.mem_map.mpr ⟨t, ht, ?_⟩)
    rw [if_neg h]

lemma mem_setBatch_other {b b' : DonationBatch} {bs : List DonationBatch}
    (hb : b ∈ bs) (hne : b.id ≠ b'.id) : b ∈ setBatch bs b' := by
  refine List.mem_map.mpr ⟨b, hb, ?_⟩
  rw [if_neg hne]

lemma mem_setBatch_self {b0 b' : DonationBatch} {bs : List DonationBatch}
    (hb : b0 ∈ bs) (hid : b0.id = b'.id) : b' ∈ setBatch bs b' := by
  refine List.mem_map.mpr ⟨b0, hb, ?_⟩
  rw [if_pos hid]

lemma ids_setBatch (bs : List DonationBatch) (b' : DonationBatch) :
    (setBatch bs b').map (fun b => b.id) = bs.map (fun b => b.id) := by
  unfold setBatch
  rw [List.map_map]
  apply List.map_congr_left
  intro x _
  by_cases h : x.id = b'.id
  · simp only [Function.comp_apply, if_pos h]
    exact h.symm
  · simp only [Function.comp_apply, if_neg h]

lemma find?_append_singleton_neg {α : Type} {q : α → Bool} {a : α}
    (ha : q a = false) :
    ∀ l : List α, (l ++ [a]).find? q = l.find? q := by
  intro l
  induction l with
  | nil => simp [List.find?, ha]
  | cons x xs ih =>
    by_cases hx : q x = true
    · rw [List.cons_append, List.find?_cons_of_pos _ hx,
        List.find?_cons_of_pos _ hx]
    · rw [List.cons_append, List.find?_cons_of_neg _ hx,
        List.find?_cons_of_neg _ hx, ih]

lemma step_group_frame (s : BatchState) (w : ℤ) (gen : String → String) (decStr : ℚ → ℚ)
    {v u : String} (hvu : v ≠ u) :
    userGroup ((processUserGroup s w gen decStr v).1) u = userGroup s u := by
  rcases step_donations_shape s w gen decStr v with h | ⟨bid, h⟩
  · unfold userGroup
    rw [h]
  · unfold userGroup
    rw [h]
    apply filter_map_eq
    intro d hd
    by_cases hc : (isPendingUnbatched d && d.userId = v) = true
    · have hthis := (Bool.and_eq_true _ _).mp hc
      simp only [decide_eq_true_eq] at hthis
      have hdu : d.userId ≠ u := by rw [hthis.2]; exact hvu
      constructor
      · rw [if_pos hc]
        have h1 : isPendingUnbatched { d with batchId := some bid } = false := by
          simp [isPendingUnbatched]
        simp [h1, hdu]
      · intro hp
        rw [Bool.and_eq_true] at hp
        simp only [decide_eq_true_eq] at hp
        exact absurd hp.2 hdu
    · constructor
      · rw [if_neg hc]
      · intro _
        rw [if_neg hc]

lemma step_donations_mem (s : BatchState) (w : ℤ) (gen : String → String) (decStr : ℚ → ℚ)
    {v : String} {d : Donation} (hd : d ∈ s.donations)
    (hcond : (isPendingUnbatched d && d.userId = v) = false) :
    d ∈ ((processUserGroup s w gen decStr v).1).donations := by
  rcases step_donations_shape s w gen decStr v with h | ⟨bid, h⟩
  · rw [h]; exact hd
  · rw [h]; exact mem_attachGroup_fix hd hcond

lemma step_txn_or (s : BatchState) (w : ℤ) (gen : String → String) (decStr : ℚ → ℚ)
    (v : String) {t : Transaction}
    (ht : t ∈ s.transactions ∨
      ({ t with status := TransactionStatus.BATCHED } : Transaction) ∈
        s.transactions) :
    t ∈ ((processUserGroup s w gen decStr v).1).transactions ∨
      ({ t with status := TransactionStatus.BATCHED } : Transaction) ∈
        ((processUserGroup s w gen decStr v).1).transactions := by
  rcases step_transactions_shape s w gen decStr v with h | ⟨tids, h⟩
  · rw [h]; exact ht
  · rw [h]
    rcases ht with h1 | h2
    · rcases @mem_markBatched_or _ _ tids h1 with h3 | h4
      · exact Or.inl h3
      · exact Or.inr h4
    · right
      exact mem_markBatched_fix h2 rfl

lemma step_txn_batched_fix (s : BatchState) (w : ℤ) (gen : String → String) (decStr : ℚ → ℚ)
    (v : String) {t : Transaction} (ht : t ∈ s.transactions)
    (hst : t.status = TransactionStatus.BATCHED) :
    t ∈ ((processUserGroup s w gen decStr v).1).transactions := by
  rcases step_transactions_shape s w gen decStr v with h | ⟨tids, h⟩
  · rw [h]; exact ht
  · rw [h]; exact mem_markBatched_fix ht hst

/-- Well-formedness of the batch table during a run: ids are distinct, and
every row is an original row or one created by this run (id generated from
its owner, week equal to the run's week). -/
def batchIdsOk (s0 : BatchState) (w : ℤ) (gen : String → String)
    (bs : List DonationBatch) : Prop :=
  (bs.map (fun b => b.id)).Nodup ∧
  ∀ b ∈ bs, b.id ∈ s0.batches.map (fun b => b.id) ∨
    ∃ v, b.id = gen v ∧ b.userId = v ∧ b.weekOf = w

lemma step_batches_find_frame (s : BatchState) (w : ℤ) (gen : String → String) (decStr : ℚ → ℚ)
    {v u : String} (hvu : v ≠ u)
    (hnodup : (s.batches.map (fun b => b.id)).Nodup) :
    ((processUserGroup s w gen decStr v).1).batches.find?
        (fun b => b.userId = u && b.weekOf = w) =
      s.batches.find? (fun b => b.userId = u && b.weekOf = w) := by
  rcases step_batches_shape s w gen decStr v with h | ⟨b0, hb0, h⟩ | ⟨hnone, h⟩
  · rw [h]
  · rw [h]
    have hb0mem := List.mem_of_find?_eq_some hb0
    have hb0pred := List.find?_some hb0
    simp only [Bool.and_eq_true, decide_eq_true_eq] at hb0pred
    apply find?_map_eq
    intro x hx
    by_cases hid : x.id =
        ({ b0 with totalAmount := b0.totalAmount + decStr (groupTotal s v)} :
          DonationBatch).id
    · have hxb0 : x = b0 :=
        List.inj_on_of_nodup_map hnodup hx hb0mem hid
      constructor
      · rw [if_pos hid, hxb0]
      · intro hq
        rw [hxb0] at hq
        simp only [Bool.and_eq_true, decide_eq_true_eq] at hq
        exact absurd hq.1 (by rw [hb0pred.1]; exact hvu)
    · constructor
      · rw [if_neg hid]
      · intro _; rw [if_neg hid]
  · rw [h]
    apply find?_append_singleton_neg
    simp [hvu]

lemma step_batches_mem_frame (s : BatchState) (w : ℤ) (gen : String → String) (decStr : ℚ → ℚ)
    {v : String} {b : DonationBatch} (hb : b ∈ s.batches) (hne : b.userId ≠ v)
    (hnodup : (s.batches.map (fun b => b.id)).Nodup) :
    b ∈ ((processUserGroup s w gen decStr v).1).batches := by
  rcases step_batches_shape s w gen decStr v with h | ⟨b0, hb0, h⟩ | ⟨hnone, h⟩
  · rw [h]; exact hb
  · rw [h]
    have hb0mem := List.mem_of_find?_eq_some hb0
    have hb0pred := List.find?_some hb0
    simp only [Bool.and_eq_true, decide_eq_true_eq] at hb0pred
    apply mem_setBatch_other hb
    intro hid
    have : b = b0 := List.inj_on_of_nodup_map hnodup hb hb0mem hid
    exact hne (by rw [this, hb0pred.1])
  · rw [h]
    exact List.mem_append_left _ hb

lemma step_batchIdsOk (s0 : BatchState) (w : ℤ) (gen : String → String) (decStr : ℚ → ℚ)
    (hfresh : ∀ v, gen v ∉ s0.batches.map (fun b => b.id))
    (hinj : ∀ v v', gen v = gen v' → v = v')
    (s : BatchState) (k : String)
    (hok : batchIdsOk s0 w gen s.batches) :
    batchIdsOk s0 w gen ((processUserGroup s w gen decStr k).1).batches := by
  rcases step_batches_shape s w gen decStr k with h | ⟨b0, hb0, h⟩ | ⟨hnone, h⟩
  · rw [h]; exact hok
  · rw [h]
    constructor
    · rw [ids_setBatch]
      exact hok.1
    · intro b hbmem
      rcases List.mem_map.mp hbmem with ⟨x, hx, hfx⟩
      by_cases hid : x.id =
          ({ b0 with totalAmount := b0.totalAmount + decStr (groupTotal s k)} :
            DonationBatch).id
      · rw [if_pos hid] at hfx
        have hb0mem := List.mem_of_find?_eq_some hb0
        rcases hok.2 b0 hb0mem with h1 | ⟨v, hv⟩
        · left; rw [← hfx]; exact h1
        · right; exact ⟨v, by rw [← hfx]; exact hv⟩
      · rw [if_neg hid] at hfx
        rw [← hfx]
        exact hok.2 x hx
  · rw [h]
    have hnew : gen k ∉ s.batches.map (fun b => b.id) := by
      intro hmem
      rcases List.mem_map.mp hmem with ⟨b, hbmem, hbid⟩
      rcases hok.2 b hbmem with h1 | ⟨v, hv1, hv2, hv3⟩
      · exact hfresh k (hbid ▸ h1)
      · have hvk : v = k := hinj v k (by rw [← hv1, hbid])
        rw [List.find?_eq_none] at hnone
        refine hnone b hbmem ?_
        simp [hv2, hv3, hvk]
    constructor
    · rw [List.map_append]
      rw [List.nodup_append]
      refine ⟨hok.1, List.nodup_singleton _, ?_⟩
      intro a ha hb
      simp only [List.map_cons, List.map_nil, List.mem_singleton] at hb
      rw [hb] at ha
      exact hnew ha
    · intro b hbmem
      rcases List.mem_append.mp hbmem with h1 | h2
      · exact hok.2 b h1
      · right
        simp only [List.mem_singleton] at h2
        rw [h2]
        exact ⟨k, rfl, rfl, rfl⟩

lemma fold_users (w : ℤ) (gen : String → String) (decStr : ℚ → ℚ) :
    ∀ (ks : List String) (acc : BatchState × List BatchResult),
      ((ks.foldl (batchStep w gen decStr) acc).1).users = (acc.1).users := by
  intro ks
  induction ks with
  | nil => intro acc; rfl
  | cons k rest ih =>
    intro acc
    rw [List.foldl_cons, ih]
    exact step_users _ _ _ _ _

lemma fold_batchIdsOk (s0 : BatchState) (w : ℤ) (gen : String → String) (decStr : ℚ → ℚ)
    (hfresh : ∀ v, gen v ∉ s0.batches.map (fun b => b.id))
    (hinj : ∀ v v', gen v = gen v' → v = v') :
    ∀ (ks : List String) (acc : BatchState × List BatchResult),
      batchIdsOk s0 w gen (acc.1).batches →
      batchIdsOk s0 w gen ((ks.foldl (batchStep w gen decStr) acc).1).batches := by
  intro ks
  induction ks with
  | nil => intro acc h; exact h
  | cons k rest ih =>
    intro acc h
    rw [List.foldl_cons]
    exact ih _ (step_batchIdsOk s0 w gen decStr hfresh hinj acc.1 k h)

lemma fold_group_find_frame (s0 : BatchState) (w : ℤ) (gen : String → String) (decStr : ℚ → ℚ)
    (hfresh : ∀ v, gen v ∉ s0.batches.map (fun b => b.id))
    (hinj : ∀ v v', gen v = gen v' → v = v') {u : String} :
    ∀ (ks : List String), u ∉ ks →
      ∀ (acc : BatchState × List BatchResult),
        batchIdsOk s0 w gen (acc.1).batches →
        userGroup ((ks.foldl (batchStep w gen decStr) acc).1) u =
            userGroup (acc.1) u ∧
          ((ks.foldl (batchStep w gen decStr) acc).1).batches.find?
              (fun b => b.userId = u && b.weekOf = w) =
            (acc.1).batches.find? (fun b => b.userId = u && b.weekOf = w) := by
  intro ks
  induction ks with
  | nil => intro _ acc _; exact ⟨rfl, rfl⟩
  | cons k rest ih =>
    intro hnot acc hok
    have hku : k ≠ u := fun h => hnot (h ▸ List.mem_cons_self _ _)
    have hrest : u ∉ rest := fun h => hnot (List.mem_cons_of_mem _ h)
    rw [List.foldl_cons]
    have hok' : batchIdsOk s0 w gen ((batchStep w gen decStr acc k).1).batches :=
      step_batchIdsOk s0 w gen decStr hfresh hinj acc.1 k hok
    have hrec := ih hrest (batchStep w gen decStr acc k) hok'
    refine ⟨?_, ?_⟩
    · rw [hrec.1]
      exact step_group_frame _ _ _ _ hku
    · rw [hrec.2]
      exact step_batches_find_frame _ _ _ _ hku hok.1

lemma fold_donations_mem (w : ℤ) (gen : String → String) (decStr : ℚ → ℚ) {d : Donation} :
    ∀ (ks : List String) (acc : BatchState × List BatchResult),
      (∀ v ∈ ks, (isPendingUnbatched d && d.userId = v) = false) →
      d ∈ (acc.1).donations →
      d ∈ ((ks.foldl (batchStep w gen decStr) acc).1).donations := by
  intro ks
  induction ks with
  | nil => intro acc _ h; exact h
  | cons k rest ih =>
    intro acc hall hd
    rw [List.foldl_cons]
    exact ih _ (fun v hv => hall v (List.mem_cons_of_mem _ hv))
      (step_donations_mem _ _ _ _ hd (hall k (List.mem_cons_self _ _)))

lemma fold_batches_mem (s0 : BatchState) (w : ℤ) (gen : String → String) (decStr : ℚ → ℚ)
    (hfresh : ∀ v, gen v ∉ s0.batches.map (fun b => b.id))
    (hinj : ∀ v v', gen v = gen v' → v = v') {b : DonationBatch} :
    ∀ (ks : List String), b.userId ∉ ks →
      ∀ (acc : BatchState × List BatchResult),
        batchIdsOk s0 w gen (acc.1).batches →
        b ∈ (acc.1).batches →
        b ∈ ((ks.foldl (batchStep w gen decStr) acc).1).batches := by
  intro ks
  induction ks with
  | nil => intro _ acc _ h; exact h
  | cons k rest ih =>
    intro hnot acc hok hb
    have hku : b.userId ≠ k := fun h => hnot (h ▸ List.mem_cons_self _ _)
    have hrest : b.userId ∉ rest := fun h => hnot (List.mem_cons_of_mem _ h)
    rw [List.foldl_cons]
    exact ih hrest _ (step_batchIdsOk s0 w gen decStr hfresh hinj acc.1 k hok)
      (step_batches_mem_frame _ _ _ _ hb hku hok.1)

lemma fold_txn_or (w : ℤ) (gen : String → String) (decStr : ℚ → ℚ) {t : Transaction} :
    ∀ (ks : List String) (acc : BatchState × List BatchResult),
      (t ∈ (acc.1).transactions ∨
        ({ t with status := TransactionStatus.BATCHED } : Transaction) ∈
          (acc.1).transactions) →
      (t ∈ ((ks.foldl (batchStep w gen decStr) acc).1).transactions ∨
        ({ t with status := TransactionStatus.BATCHED } : Transaction) ∈
          ((ks.foldl (batchStep w gen decStr) acc).1).transactions) := by
  intro ks
  induction ks with
  | nil => intro acc h; exact h
  | cons k rest ih =>
    intro acc h
    rw [List.foldl_cons]
    exact ih _ (step_txn_or _ _ _ _ _ h)

lemma fold_txn_fix (w : ℤ) (gen : String → String) (decStr : ℚ → ℚ) {t : Transaction}
    (hst : t.status = TransactionStatus.BATCHED) :
    ∀ (ks : List String) (acc : BatchState × List BatchResult),
      t ∈ (acc.1).transactions →
      t ∈ ((ks.foldl (batchStep w gen decStr) acc).1).transactions := by
  intro ks
  induction ks with
  | nil => intro acc h; exact h
  | cons k rest ih =>
    intro acc h
    rw [List.foldl_cons]
    exact ih _ (step_txn_batched_fix _ _ _ _ _ h hst)

lemma fold_results_mono (w : ℤ) (gen : String → String) (decStr : ℚ → ℚ) {e : BatchResult} :
    ∀ (ks : List String) (acc : BatchState × List BatchResult),
      e ∈ acc.2 → e ∈ (ks.foldl (batchStep w gen decStr) acc).2 := by
  intro ks
  induction ks with
  | nil => intro acc h; exact h
  | cons k rest ih =>
    intro acc h
    rw [List.foldl_cons]
    exact ih _ (List.mem_append_left _ h)

lemma fold_results_origin (w : ℤ) (gen : String → String) (decStr : ℚ → ℚ) :
    ∀ (ks : List String) (acc : BatchState × List BatchResult),
      ∀ e ∈ (ks.foldl (batchStep w gen decStr) acc).2,
        e ∈ acc.2 ∨ e.userId ∈ ks := by
  intro ks
  induction ks with
  | nil => intro acc e h; exact Or.inl h
  | cons k rest ih =>
    intro acc e he
    rw [List.foldl_cons] at he
    rcases ih _ e he with h1 | h2
    · rcases List.mem_append.mp h1 with h3 | h4
      · exact Or.inl h3
      · cases hres : (processUserGroup acc.1 w gen decStr k).2 with
        | none =>
          rw [hres] at h4
          simp at h4
        | some e0 =>
          right
          rw [hres] at h4
          simp only [List.mem_singleton] at h4
          rw [h4]
          rw [step_result_shape _ _ _ _ _ e0 hres]
          exact List.mem_cons_self _ _
    · exact Or.inr (List.mem_cons_of_mem _ h2)

/-- C5 (amended): `create_weekly_batches` groups the PENDING unassigned
donations by owning user; a user's group is skipped entirely (those
donation rows are untouched and no result entry is produced for the user)
when auto-donate is disabled or the group total — the binary
floating-point accumulation `sum(float(d.amount))`, which can fall below
1.00 even when the exact decimal total equals 1.00 — is below 1.00; each
processed group either extends the existing batch of that (user, week),
adding the computed group total, converted back to decimal through its
string rendering (`decStr`), to its running total, or creates a new
PENDING batch with that converted total, then every grouped donation
carries the batch id and every linked source transaction is BATCHED.  The
result entry keeps the raw float total.  Batch ids are assumed distinct,
and the generated ids fresh and injective. -/
theorem create_weekly_batches_spec
    (s : BatchState) (w : ℤ) (gen : String → String) (decStr : ℚ → ℚ)
    (hnodup : (s.batches.map (fun b => b.id)).Nodup)
    (hfresh : ∀ v, gen v ∉ s.batches.map (fun b => b.id))
    (hinj : ∀ v v', gen v = gen v' → v = v')
    (u : String) (user : User)
    (hu : s.users.find? (fun x => x.id = u) = some user) :
    ((user.autoDonateEnabled = false ∨ groupTotal s u < 1) →
        (∀ d ∈ s.donations, d.userId = u →
          d ∈ (create_weekly_batches s w gen decStr).1.donations) ∧
        (∀ e ∈ (create_weekly_batches s w gen decStr).2, e.userId ≠ u)) ∧
      (user.autoDonateEnabled = true → ¬ groupTotal s u < 1 →
        userGroup s u ≠ [] →
        ∃ bid,
          (∀ d ∈ s.donations, (isPendingUnbatched d && d.userId = u) = true →
            { d with batchId := some bid } ∈
              (create_weekly_batches s w gen decStr).1.donations) ∧
          (∀ d ∈ userGroup s u, ∀ tid, d.transactionId = some tid →
            ∀ t ∈ s.transactions, t.id = tid →
              { t with status := TransactionStatus.BATCHED } ∈
                (create_weekly_batches s w gen decStr).1.transactions) ∧
          (⟨u, bid, (userGroup s u).length, groupTotal s u⟩ : BatchResult) ∈
            (create_weekly_batches s w gen decStr).2 ∧
          (∀ b0, s.batches.find? (fun b => b.userId = u && b.weekOf = w) =
              some b0 →
            bid = b0.id ∧
              { b0 with totalAmount := b0.totalAmount + decStr (groupTotal s u) } ∈
                (create_weekly_batches s w gen decStr).1.batches) ∧
          (s.batches.find? (fun b => b.userId = u && b.weekOf = w) = none →
            bid = gen u ∧
              (⟨gen u, u, w, decStr (groupTotal s u), DonationBatchStatus.PENDING⟩ :
                  DonationBatch) ∈
                (create_weekly_batches s w gen decStr).1.batches)) := by
  have hok0 : batchIdsOk s w gen s.batches :=
    ⟨hnodup, fun b hb => Or.inl (List.mem_map.mpr ⟨b, hb, rfl⟩)⟩
  have hrun : create_weekly_batches s w gen decStr =
      (keysInOrder ((s.donations.filter isPendingUnbatched).map
        (fun d => d.userId))).foldl (batchStep w gen decStr) (s, []) := rfl
  constructor
  · intro hskip
    by_cases hmem : u ∈ keysInOrder ((s.donations.filter isPendingUnbatched).map
        (fun d => d.userId))
    · obtain ⟨pre, post, hsplit⟩ := List.append_of_mem hmem
      have hnd := nodup_keysInOrder ((s.donations.filter isPendingUnbatched).map
        (fun d => d.userId))
      rw [hsplit, List.nodup_append] at hnd
      have hupre : u ∉ pre := fun hin => hnd.2.2 hin (List.mem_cons_self _ _)
      have hupost : u ∉ post := (List.nodup_cons.mp hnd.2.1).1
      have hmidok : batchIdsOk s w gen
          ((pre.foldl (batchStep w gen decStr) (s, [])).1).batches :=
        fold_batchIdsOk s w gen decStr hfresh hinj pre (s, []) hok0
      have hmidusers : ((pre.foldl (batchStep w gen decStr) (s, [])).1).users =
          s.users := fold_users w gen decStr pre (s, [])
      have hmidframe := fold_group_find_frame s w gen decStr hfresh hinj pre hupre
        (s, []) hok0
      have hmidfind : ((pre.foldl (batchStep w gen decStr) (s, [])).1).users.find?
          (fun x => x.id = u) = some user := by rw [hmidusers]; exact hu
      have hgt : groupTotal ((pre.foldl (batchStep w gen decStr) (s, [])).1) u =
          groupTotal s u := by
        unfold groupTotal
        rw [hmidframe.1]
      have hstep : processUserGroup ((pre.foldl (batchStep w gen decStr) (s, [])).1)
          w gen decStr u = ((pre.foldl (batchStep w gen decStr) (s, [])).1, none) := by
        by_cases hen : user.autoDonateEnabled = true
        · rcases hskip with hdis | hlow
          · rw [hen] at hdis; cases hdis
          · exact step_skip_below_floor _ _ _ _ _ _ hmidfind hen
              (by rw [hgt]; exact hlow)
        · exact step_skip_disabled _ _ _ _ _ _ hmidfind (by simpa using hen)
      have hbsu : batchStep w gen decStr (pre.foldl (batchStep w gen decStr) (s, [])) u =
          (((pre.foldl (batchStep w gen decStr) (s, [])).1),
            (pre.foldl (batchStep w gen decStr) (s, [])).2) := by
        simp only [batchStep, hstep]
        simp
      constructor
      · intro d hd hdu
        have hcondpre : ∀ v ∈ pre,
            (isPendingUnbatched d && d.userId = v) = false := by
          intro v hv
          have : d.userId ≠ v := by
            rw [hdu]; intro h; exact hupre (h ▸ hv)
          simp [this]
        have h1 : d ∈ ((pre.foldl (batchStep w gen decStr) (s, [])).1).donations :=
          fold_donations_mem w gen decStr pre (s, []) hcondpre hd
        have hcondpost : ∀ v ∈ post,
            (isPendingUnbatched d && d.userId = v) = false := by
          intro v hv
          have : d.userId ≠ v := by
            rw [hdu]; intro h; exact hupost (h ▸ hv)
          simp [this]
        rw [hrun, hsplit, List.foldl_append, List.foldl_cons, hbsu]
        exact fold_donations_mem w gen decStr post _ hcondpost h1
      · intro e he
        rw [hrun, hsplit, List.foldl_append, List.foldl_cons, hbsu] at he
        rcases fold_results_origin w gen decStr post _ e he with h1 | h2
        · rcases fold_results_origin w gen decStr pre (s, []) e h1 with h3 | h4
          · simp at h3
          · intro hequ; exact hupre (hequ ▸ h4)
        · intro hequ; exact hupost (hequ ▸ h2)
    · constructor
      · intro d hd hdu
        have hcond : ∀ v ∈ keysInOrder
            ((s.donations.filter isPendingUnbatched).map (fun d => d.userId)),
            (isPendingUnbatched d && d.userId = v) = false := by
          intro v hv
          have : d.userId ≠ v := by
            rw [hdu]; intro h; exact hmem (h ▸ hv)
          simp [this]
        rw [hrun]
        exact fold_donations_mem w gen decStr _ (s, []) hcond hd
      · intro e he
        rw [hrun] at he
        rcases fold_results_origin w gen decStr _ (s, []) e he with h1 | h2
        · simp at h1
        · intro hequ; exact hmem (hequ ▸ h2)
  · intro hen hhigh hne
    obtain ⟨d0, hd0⟩ := List.exists_mem_of_ne_nil _ hne
    have hd0' := List.mem_filter.mp hd0
    have hd0cond := hd0'.2
    rw [Bool.and_eq_true] at hd0cond
    have hmem : u ∈ keysInOrder
        ((s.donations.filter isPendingUnbatched).map (fun d => d.userId)) := by
      apply mem_keysInOrder.mpr
      refine List.mem_map.mpr ⟨d0, List.mem_filter.mpr ⟨hd0'.1, hd0cond.1⟩, ?_⟩
      have := hd0cond.2
      simpa using this
    obtain ⟨pre, post, hsplit⟩ := List.append_of_mem hmem
    have hnd := nodup_keysInOrder ((s.donations.filter isPendingUnbatched).map
      (fun d => d.userId))
    rw [hsplit, List.nodup_append] at hnd
    have hupre : u ∉ pre := fun hin => hnd.2.2 hin (List.mem_cons_self _ _)
    have hupost : u ∉ post := (List.nodup_cons.mp hnd.2.1).1
    have hmidok : batchIdsOk s w gen
        ((pre.foldl (batchStep w gen decStr) (s, [])).1).batches :=
      fold_batchIdsOk s w gen decStr hfresh hinj pre (s, []) hok0
    have hmidusers : ((pre.foldl (batchStep w gen decStr) (s, [])).1).users =
        s.users := fold_users w gen decStr pre (s, [])
    have hmidframe := fold_group_find_frame s w gen decStr hfresh hinj pre hupre
      (s, []) hok0
    have hmidfind : ((pre.foldl (batchStep w gen decStr) (s, [])).1).users.find?
        (fun x => x.id = u) = some user := by rw [hmidusers]; exact hu
    have hgt : groupTotal ((pre.foldl (batchStep w gen decStr) (s, [])).1) u =
        groupTotal s u := by
      unfold groupTotal
      rw [hmidframe.1]
    have hhigh' : ¬ groupTotal ((pre.foldl (batchStep w gen decStr) (s, [])).1) u <
        1 := by rw [hgt]; exact hhigh
    cases hfound : s.batches.find? (fun b => b.userId = u && b.weekOf = w) with
    | some b0 =>
      have hfound' : ((pre.foldl (batchStep w gen decStr) (s, [])).1).batches.find?
          (fun b => b.userId = u && b.weekOf = w) = some b0 := by
        rw [hmidframe.2]; exact hfound
      have hstep := step_process_extend
        ((pre.foldl (batchStep w gen decStr) (s, [])).1) w gen decStr u user b0 hmidfind hen
        hhigh' hfound'
      rw [hgt, hmidframe.1] at hstep
      have hb0mem := List.mem_of_find?_eq_some hfound'
      have hb0pred := List.find?_some hfound
      rw [Bool.and_eq_true] at hb0pred
      have hb0uid : b0.userId = u := by
        have := hb0pred.1; simpa using this
      have hokafter : batchIdsOk s w gen
          (((batchStep w gen decStr (pre.foldl (batchStep w gen decStr) (s, [])) u)).1).batches :=
        step_batchIdsOk s w gen decStr hfresh hinj _ u hmidok
      refine ⟨b0.id, ?_, ?_, ?_, ?_, ?_⟩
      · intro d hd hcond
        have hdu : d.userId = u := by
          have := (Bool.and_eq_true _ _).mp hcond
          simpa using this.2
        have hcondpre : ∀ v ∈ pre,
            (isPendingUnbatched d && d.userId = v) = false := by
          intro v hv
          have : d.userId ≠ v := by
            rw [hdu]; intro h; exact hupre (h ▸ hv)
          simp [this]
        have h1 : d ∈ ((pre.foldl (batchStep w gen decStr) (s, [])).1).donations :=
          fold_donations_mem w gen decStr pre (s, []) hcondpre hd
        have h2 : { d with batchId := some b0.id } ∈
            ((batchStep w gen decStr (pre.foldl (batchStep w gen decStr) (s, [])) u).1).donations := by
          have : (batchStep w gen decStr (pre.foldl (batchStep w gen decStr) (s, [])) u).1 =
              (processUserGroup ((pre.foldl (batchStep w gen decStr) (s, [])).1)
                w gen decStr u).1 := rfl
          rw [this, hstep]
          exact mem_attachGroup_hit h1 hcond
        have hcondpost : ∀ v ∈ post,
            (isPendingUnbatched ({ d with batchId := some b0.id} : Donation) &&
              ({ d with batchId := some b0.id} : Donation).userId = v) =
                false := by
          intro v hv
          simp [isPendingUnbatched]
        rw [hrun, hsplit, List.foldl_append, List.foldl_cons]
        exact fold_donations_mem w gen decStr post _ hcondpost h2
      · intro d hdg tid htid t ht hteq
        have h1 := fold_txn_or w gen decStr pre (s, []) (Or.inl ht)
        have htids : ((userGroup s u).filterMap
            (fun d => d.transactionId)).contains t.id = true := by
          apply List.elem_iff.mpr
          rw [hteq]
          exact List.mem_filterMap.mpr ⟨d, hdg, htid⟩
        have h2 : ({ t with status := TransactionStatus.BATCHED } :
            Transaction) ∈
            ((batchStep w gen decStr (pre.foldl (batchStep w gen decStr) (s, [])) u).1).transactions := by
          have heq : (batchStep w gen decStr (pre.foldl (batchStep w gen decStr) (s, [])) u).1 =
              (processUserGroup ((pre.foldl (batchStep w gen decStr) (s, [])).1)
                w gen decStr u).1 := rfl
          rw [heq, hstep]
          rcases h1 with h3 | h4
          · exact mem_markBatched_hit h3 htids
          · exact mem_markBatched_fix h4 rfl
        rw [hrun, hsplit, List.foldl_append, List.foldl_cons]
        exact fold_txn_fix w gen decStr rfl post _ h2
      · have hentry : (⟨u, b0.id, (userGroup s u).length, groupTotal s u⟩ :
            BatchResult) ∈
            (batchStep w gen decStr (pre.foldl (batchStep w gen decStr) (s, [])) u).2 := by
          have heq : (batchStep w gen decStr (pre.foldl (batchStep w gen decStr) (s, [])) u).2 =
              (pre.foldl (batchStep w gen decStr) (s, [])).2 ++
                (match (processUserGroup
                    ((pre.foldl (batchStep w gen decStr) (s, [])).1) w gen decStr u).2 with
                  | some e => [e] | none => []) := rfl
          rw [heq, hstep]
          exact List.mem_append_right _ (List.mem_singleton_self _)
        rw [hrun, hsplit, List.foldl_append, List.foldl_cons]
        exact fold_results_mono w gen decStr post _ hentry
      · intro b0' hb0'
        rw [Option.some_inj] at hb0'
        subst hb0'
        refine ⟨rfl, ?_⟩
        have h2 : ({ b0 with totalAmount := b0.totalAmount + decStr (groupTotal s u) } :
            DonationBatch) ∈
            ((batchStep w gen decStr (pre.foldl (batchStep w gen decStr) (s, [])) u).1).batches := by
          have heq : (batchStep w gen decStr (pre.foldl (batchStep w gen decStr) (s, [])) u).1 =
              (processUserGroup ((pre.foldl (batchStep w gen decStr) (s, [])).1)
                w gen decStr u).1 := rfl
          rw [heq, hstep]
          exact mem_setBatch_self hb0mem rfl
        rw [hrun, hsplit, List.foldl_append, List.foldl_cons]
        refine fold_batches_mem s w gen decStr hfresh hinj post ?_ _ hokafter h2
        show ({ b0 with totalAmount := b0.totalAmount + decStr (groupTotal s u)} :
          DonationBatch).userId ∉ post
        rw [show ({ b0 with totalAmount := b0.totalAmount + decStr (groupTotal s u)} :
          DonationBatch).userId = b0.userId from rfl, hb0uid]
        exact hupost
      · intro hnone
        simp at hnone
    | none =>
      have hfound' : ((pre.foldl (batchStep w gen decStr) (s, [])).1).batches.find?
          (fun b => b.userId = u && b.weekOf = w) = none := by
        rw [hmidframe.2]; exact hfound
      have hstep := step_process_create
        ((pre.foldl (batchStep w gen decStr) (s, [])).1) w gen decStr u user hmidfind hen
        hhigh' hfound'
      rw [hgt, hmidframe.1] at hstep
      have hokafter : batchIdsOk s w gen
          (((batchStep w gen decStr (pre.foldl (batchStep w gen decStr) (s, [])) u)).1).batches :=
        step_batchIdsOk s w gen decStr hfresh hinj _ u hmidok
      refine ⟨gen u, ?_, ?_, ?_, ?_, ?_⟩
      · intro d hd hcond
        have hdu : d.userId = u := by
          have := (Bool.and_eq_true _ _).mp hcond
          simpa using this.2
        have hcondpre : ∀ v ∈ pre,
            (isPendingUnbatched d && d.userId = v) = false := by
          intro v hv
          have : d.userId ≠ v := by
            rw [hdu]; intro h; exact hupre (h ▸ hv)
          simp [this]
        have h1 : d ∈ ((pre.foldl (batchStep w gen decStr) (s, [])).1).donations :=
          fold_donations_mem w gen decStr pre (s, []) hcondpre hd
        have h2 : { d with batchId := some (gen u) } ∈
            ((batchStep w gen decStr (pre.foldl (batchStep w gen decStr) (s, [])) u).1).donations := by
          have heq : (batchStep w gen decStr (pre.foldl (batchStep w gen decStr) (s, [])) u).1 =
              (processUserGroup ((pre.foldl (batchStep w gen decStr) (s, [])).1)
                w gen decStr u).1 := rfl
          rw [heq, hstep]
          exact mem_attachGroup_hit h1 hcond
        have hcondpost : ∀ v ∈ post,
            (isPendingUnbatched ({ d with batchId := some (gen u)} : Donation) &&
              ({ d with batchId := some (gen u)} : Donation).userId = v) =
                false := by
          intro v hv
          simp [isPendingUnbatched]
        rw [hrun, hsplit, List.foldl_append, List.foldl_cons]
        exact fold_donations_mem w gen decStr post _ hcondpost h2
      · intro d hdg tid htid t ht hteq
        have h1 := fold_txn_or w gen decStr pre (s, []) (Or.inl ht)
        have htids : ((userGroup s u).filterMap
            (fun d => d.transactionId)).contains t.id = true := by
          apply List.elem_iff.mpr
          rw [hteq]
          exact List.mem_filterMap.mpr ⟨d, hdg, htid⟩
        have h2 : ({ t with status := TransactionStatus.BATCHED } :
            Transaction) ∈
            ((batchStep w gen decStr (pre.foldl (batchStep w gen decStr) (s, [])) u).1).transactions := by
          have heq : (batchStep w gen decStr (pre.foldl (batchStep w gen decStr) (s, [])) u).1 =
              (processUserGroup ((pre.foldl (batchStep w gen decStr) (s, [])).1)
                w gen decStr u).1 := rfl
          rw [heq, hstep]
          rcases h1 with h3 | h4
          · exact mem_markBatched_hit h3 htids
          · exact mem_markBatched_fix h4 rfl
        rw [hrun, hsplit, List.foldl_append, List.foldl_cons]
        exact fold_txn_fix w gen decStr rfl post _ h2
      · have hentry : (⟨u, gen u, (userGroup s u).length, groupTotal s u⟩ :
            BatchResult) ∈
            (batchStep w gen decStr (pre.foldl (batchStep w gen decStr) (s, [])) u).2 := by
          have heq : (batchStep w gen decStr (pre.foldl (batchStep w gen decStr) (s, [])) u).2 =
              (pre.foldl (batchStep w gen decStr) (s, [])).2 ++
                (match (processUserGroup
                    ((pre.foldl (batchStep w gen decStr) (s, [])).1) w gen decStr u).2 with
                  | some e => [e] | none => []) := rfl
          rw [heq, hstep]
          exact List.mem_append_right _ (List.mem_singleton_self _)
        rw [hrun, hsplit, List.foldl_append, List.foldl_cons]
        exact fold_results_mono w gen decStr post _ hentry
      · intro b0' hb0'
        simp at hb0'
      · intro _
        refine ⟨rfl, ?_⟩
        have h2 : (⟨gen u, u, w, decStr (groupTotal s u), DonationBatchStatus.PENDING⟩ :
            DonationBatch) ∈
            ((batchStep w gen decStr (pre.foldl (batchStep w gen decStr) (s, [])) u).1).batches := by
          have heq : (batchStep w gen decStr (pre.foldl (batchStep w gen decStr) (s, [])) u).1 =
              (processUserGroup ((pre.foldl (batchStep w gen decStr) (s, [])).1)
                w gen decStr u).1 := rfl
          rw [heq, hstep]
          exact List.mem_append_right _ (List.mem_singleton_self _)
        rw [hrun, hsplit, List.foldl_append, List.foldl_cons]
        exact fold_batches_mem s w gen decStr hfresh hinj post hupost _ hokafter h2

/-- User of the C5 witness, auto-donate enabled. -/
def bUser : User := ⟨"u1", 1, none, 0, true, none⟩

/-- Linked transaction of the C5 witness. -/
def bTxn : Transaction :=
  ⟨"t1", "u1", "b1", "pt1", "SHOP", "SHOP", 3/4, 0, [],
    TransactionStatus.MATCHED, none⟩

/-- Batch-aggregation state of the C5 witness: one user with two pending
unbatched donations totalling 1.25, no existing batches. -/
def batchSt : BatchState :=
  ⟨[bUser], [bTxn],
    [⟨"d1", "u1", none, some "t1", "ch1", "slug", "Name", 3/4,
        DonationStatus.PENDING, none, none⟩,
      ⟨"d2", "u1", none, none, "ch1", "slug", "Name", 1/2,
        DonationStatus.PENDING, none, none⟩],
    []⟩

/-- Batch-id generator of the C5 witness. -/
def bGen : String → String := fun v => "B" ++ v

lemma bGen_inj : ∀ v v', bGen v = bGen v' → v = v' := by
  intro v v' h
  have hd := congrArg String.data h
  simp only [bGen, String.data_append] at hd
  have h2 := List.append_cancel_left hd
  cases v; cases v'
  simp only at h2
  rw [h2]

/-- C5 witness: the theorem applied to the concrete one-user state. -/
theorem create_weekly_batches_spec_witness :
    ((bUser.autoDonateEnabled = false ∨ groupTotal batchSt "u1" < 1) →
        (∀ d ∈ batchSt.donations, d.userId = "u1" →
          d ∈ (create_weekly_batches batchSt 0 bGen (fun q => q)).1.donations) ∧
        (∀ e ∈ (create_weekly_batches batchSt 0 bGen (fun q => q)).2, e.userId ≠ "u1")) ∧
      (bUser.autoDonateEnabled = true → ¬ groupTotal batchSt "u1" < 1 →
        userGroup batchSt "u1" ≠ [] →
        ∃ bid,
          (∀ d ∈ batchSt.donations,
            (isPendingUnbatched d && d.userId = "u1") = true →
            { d with batchId := some bid } ∈
              (create_weekly_batches batchSt 0 bGen (fun q => q)).1.donations) ∧
          (∀ d ∈ userGroup batchSt "u1", ∀ tid, d.transactionId = some tid →
            ∀ t ∈ batchSt.transactions, t.id = tid →
              { t with status := TransactionStatus.BATCHED } ∈
                (create_weekly_batches batchSt 0 bGen (fun q => q)).1.transactions) ∧
          (⟨"u1", bid, (userGroup batchSt "u1").length,
              groupTotal batchSt "u1"⟩ : BatchResult) ∈
            (create_weekly_batches batchSt 0 bGen (fun q => q)).2 ∧
          (∀ b0, batchSt.batches.find?
              (fun b => b.userId = "u1" && b.weekOf = 0) = some b0 →
            bid = b0.id ∧
              { b0 with totalAmount := b0.totalAmount +
                  groupTotal batchSt "u1" } ∈
                (create_weekly_batches batchSt 0 bGen (fun q => q)).1.batches) ∧
          (batchSt.batches.find?
              (fun b => b.userId = "u1" && b.weekOf = 0) = none →
            bid = bGen "u1" ∧
              (⟨bGen "u1", "u1", 0, groupTotal batchSt "u1",
                  DonationBatchStatus.PENDING⟩ : DonationBatch) ∈
                (create_weekly_batches batchSt 0 bGen (fun q => q)).1.batches)) :=
  create_weekly_batches_spec batchSt 0 bGen (fun q => q)
    (by simp [batchSt])
    (by simp [batchSt])
    bGen_inj
    "u1" bUser
    (by simp +decide [batchSt, bUser])

lemma int_log2_eq {y : ℚ} {e : ℤ} (h1 : (2:ℚ)^e ≤ y) (h2 : y < 2^(e+1)) :
    Int.log 2 y = e := by
  have hy : 0 < y := lt_of_lt_of_le (by positivity) h1
  have hle : e ≤ Int.log 2 y := (Int.zpow_le_iff_le_log (by norm_num) hy).mp h1
  have hlt : Int.log 2 y < e + 1 := by
    by_contra hc
    push_neg at hc
    have hself := Int.zpow_log_le_self (b := 2) (r := y) (by norm_num) hy
    push_cast at hself
    have h3 : (2:ℚ)^(e+1) ≤ (2:ℚ)^(Int.log 2 y) :=
      zpow_le_zpow_right₀ (by norm_num) hc
    linarith
  omega

lemma fl_eval {x : ℚ} {e n : ℤ} (h1 : (2:ℚ)^e ≤ x) (h2 : x < 2^(e+1))
    (h3 : roundHalfEvenZ (x * 2 ^ ((52 : ℤ) - e)) = n) :
    fl x = (n : ℚ) * 2 ^ (e - 52) := by
  have hx : 0 < x := lt_of_lt_of_le (by positivity) h1
  unfold fl
  rw [if_neg (ne_of_gt hx), if_pos hx]
  simp only [flPos]
  rw [int_log2_eq h1 h2, h3]

lemma fl_tenth : fl (1/10 : ℚ) = 7205759403792794 / 2 ^ 56 := by
  have h := fl_eval (x := (1/10 : ℚ)) (e := -4) (n := 7205759403792794)
    (by norm_num) (by norm_num) (by norm_num [roundHalfEvenZ, Int.even_iff])
  rw [h]; norm_num

lemma flStep1 : fl ((0 : ℚ) + 7205759403792794 / 2 ^ 56) =
    7205759403792794 / 2 ^ 56 := by
  have h := fl_eval (x := (0 : ℚ) + 7205759403792794 / 2 ^ 56)
    (e := -4) (n := 7205759403792794)
    (by norm_num) (by norm_num) (by norm_num [roundHalfEvenZ, Int.even_iff])
  rw [h]; norm_num
lemma flStep2 : fl ((7205759403792794 : ℚ) / 2 ^ 56 + 7205759403792794 / 2 ^ 56) =
    14411518807585588 / 2 ^ 56 := by
  have h := fl_eval (x := (7205759403792794 : ℚ) / 2 ^ 56 + 7205759403792794 / 2 ^ 56)
    (e := -3) (n := 7205759403792794)
    (by norm_num) (by norm_num) (by norm_num [roundHalfEvenZ, Int.even_iff])
  rw [h]; norm_num

lemma flStep3 : fl ((14411518807585588 : ℚ) / 2 ^ 56 + 7205759403792794 / 2 ^ 56) =
    21617278211378384 / 2 ^ 56 := by
  have h := fl_eval (x := (14411518807585588 : ℚ) / 2 ^ 56 + 7205759403792794 / 2 ^ 56)
    (e := -2) (n := 5404319552844596)
    (by norm_num) (by norm_num) (by norm_num [roundHalfEvenZ, Int.even_iff])
  rw [h]; norm_num

lemma flStep4 : fl ((21617278211378384 : ℚ) / 2 ^ 56 + 7205759403792794 / 2 ^ 56) =
    28823037615171176 / 2 ^ 56 := by
  have h := fl_eval (x := (21617278211378384 : ℚ) / 2 ^ 56 + 7205759403792794 / 2 ^ 56)
    (e := -2) (n := 7205759403792794)
    (by norm_num) (by norm_num) (by norm_num [roundHalfEvenZ, Int.even_iff])
  rw [h]; norm_num

lemma flStep5 : fl ((28823037615171176 : ℚ) / 2 ^ 56 + 7205759403792794 / 2 ^ 56) =
    36028797018963968 / 2 ^ 56 := by
  have h := fl_eval (x := (28823037615171176 : ℚ) / 2 ^ 56 + 7205759403792794 / 2 ^ 56)
    (e := -1) (n := 4503599627370496)
    (by norm_num) (by norm_num) (by norm_num [roundHalfEvenZ, Int.even_iff])
  rw [h]; norm_num

lemma flStep6 : fl ((36028797018963968 : ℚ) / 2 ^ 56 + 7205759403792794 / 2 ^ 56) =
    43234556422756760 / 2 ^ 56 := by
  have h := fl_eval (x := (36028797018963968 : ℚ) / 2 ^ 56 + 7205759403792794 / 2 ^ 56)
    (e := -1) (n := 5404319552844595)
    (by norm_num) (by norm_num) (by norm_num [roundHalfEvenZ, Int.even_iff])
  rw [h]; norm_num

lemma flStep7 : fl ((43234556422756760 : ℚ) / 2 ^ 56 + 7205759403792794 / 2 ^ 56) =
    50440315826549552 / 2 ^ 56 := by
  have h := fl_eval (x := (43234556422756760 : ℚ) / 2 ^ 56 + 7205759403792794 / 2 ^ 56)
    (e := -1) (n := 6305039478318694)
    (by norm_num) (by norm_num) (by norm_num [roundHalfEvenZ, Int.even_iff])
  rw [h]; norm_num

lemma flStep8 : fl ((50440315826549552 : ℚ) / 2 ^ 56 + 7205759403792794 / 2 ^ 56) =
    57646075230342344 / 2 ^ 56 := by
  have h := fl_eval (x := (50440315826549552 : ℚ) / 2 ^ 56 + 7205759403792794 / 2 ^ 56)
    (e := -1) (n := 7205759403792793)
    (by norm_num) (by norm_num) (by norm_num [roundHalfEvenZ, Int.even_iff])
  rw [h]; norm_num

lemma flStep9 : fl ((57646075230342344 : ℚ) / 2 ^ 56 + 7205759403792794 / 2 ^ 56) =
    64851834634135136 / 2 ^ 56 := by
  have h := fl_eval (x := (57646075230342344 : ℚ) / 2 ^ 56 + 7205759403792794 / 2 ^ 56)
    (e := -1) (n := 8106479329266892)
    (by norm_num) (by norm_num) (by norm_num [roundHalfEvenZ, Int.even_iff])
  rw [h]; norm_num

lemma flStep10 : fl ((64851834634135136 : ℚ) / 2 ^ 56 + 7205759403792794 / 2 ^ 56) =
    72057594037927928 / 2 ^ 56 := by
  have h := fl_eval (x := (64851834634135136 : ℚ) / 2 ^ 56 + 7205759403792794 / 2 ^ 56)
    (e := -1) (n := 9007199254740991)
    (by norm_num) (by norm_num) (by norm_num [roundHalfEvenZ, Int.even_iff])
  rw [h]; norm_num

lemma pyFloatSumQ_ten_tenths :
    pyFloatSumQ [1/10, 1/10, 1/10, 1/10, 1/10, 1/10, 1/10, 1/10, 1/10,
      1/10] = 72057594037927928 / 2 ^ 56 := by
  simp only [pyFloatSumQ, List.foldl_cons, List.foldl_nil, fl_tenth,
    flStep1, flStep2, flStep3, flStep4, flStep5, flStep6, flStep7,
    flStep8, flStep9, flStep10]

/-- User of the C5 counterexample, auto-donate enabled, no cap. -/
def fUser : User := ⟨"u9", 1, none, 0, true, none⟩

/-- A pending unbatched 0.10 donation of the counterexample user. -/
def fDime (i : String) : Donation :=
  ⟨i, "u9", none, none, "ch1", "slug", "Name", 1/10,
    DonationStatus.PENDING, none, none⟩

/-- State of the C5 counterexample: one enabled user owning ten pending
unbatched 0.10 donations — exact decimal total exactly 1.00 — no
transactions and no existing batches. -/
def floatState : BatchState :=
  ⟨[fUser], [],
    [fDime "f1", fDime "f2", fDime "f3", fDime "f4", fDime "f5",
      fDime "f6", fDime "f7", fDime "f8", fDime "f9", fDime "f10"], []⟩

lemma userGroup_amounts_floatState :
    (userGroup floatState "u9").map (fun d => d.amount) =
      [1/10, 1/10, 1/10, 1/10, 1/10, 1/10, 1/10, 1/10, 1/10, 1/10] := by
  simp +decide [userGroup, floatState, fDime, isPendingUnbatched]

lemma groupTotal_floatState :
    groupTotal floatState "u9" = 72057594037927928 / 2 ^ 56 := by
  simp only [groupTotal]
  rw [userGroup_amounts_floatState, pyFloatSumQ_ten_tenths]

lemma floatState_keys :
    keysInOrder ((floatState.donations.filter isPendingUnbatched).map
      (fun d => d.userId)) = ["u9"] := by
  simp +decide [floatState, fDime, isPendingUnbatched, keysInOrder]

/-- C5, counterexample to the original claim: an enabled user owning ten
pending unbatched 0.10 donations — exact decimal total exactly 1.00, not
below the claimed 1.00 floor — is nevertheless skipped entirely, because
the binary floating-point accumulation the source performs computes
72057594037927928/2^56 = (2^53 - 1)/2^53 < 1: the run returns the state
unchanged, creates no batch, attaches no donation and produces no result
entry. -/
theorem create_weekly_batches_float_floor_counterexample :
    fUser.autoDonateEnabled = true ∧
    (∀ d ∈ floatState.donations,
      isPendingUnbatched d = true ∧ d.userId = "u9" ∧ d.amount = 1/10) ∧
    (floatState.donations.map (fun d => d.amount)).sum = 1 ∧
    groupTotal floatState "u9" < 1 ∧
    create_weekly_batches floatState 0 bGen (fun q => q) =
      (floatState, []) := by
  refine ⟨rfl, ?_, ?_, ?_, ?_⟩
  · intro d hd
    simp only [floatState, fDime, List.mem_cons, List.not_mem_nil,
      or_false] at hd
    rcases hd with h|h|h|h|h|h|h|h|h|h <;> subst h <;>
      exact ⟨by decide, rfl, rfl⟩
  · show ((floatState.donations.map (fun d => d.amount))).sum = 1
    norm_num [floatState, fDime, List.sum_cons, List.sum_nil]
  · rw [groupTotal_floatState]; norm_num
  · have hufind : floatState.users.find? (fun x => x.id = "u9") =
        some fUser := by
      simp +decide [floatState, fUser]
    have htot : groupTotal floatState "u9" < 1 := by
      rw [groupTotal_floatState]; norm_num
    have hstep := step_skip_below_floor floatState 0 bGen (fun q => q) "u9"
      fUser hufind rfl htot
    show (keysInOrder ((floatState.donations.filter
        isPendingUnbatched).map (fun d => d.userId))).foldl
      (batchStep 0 bGen (fun q => q)) (floatState, []) = (floatState, [])
    rw [floatState_keys, List.foldl_cons, List.foldl_nil]
    simp [batchStep, hstep]

/-- Resolvable charity (EIN known to the disbursement provider). -/
def distCharityA : Charity :=
  ⟨"chA", "c1", "slugA", "Charity A", some "12-3456789", none, true, true⟩

/-- Unresolvable charity: no stored id and no EIN. -/
def distCharityB : Charity :=
  ⟨"chB", "c1", "slugB", "Charity B", none, none, false, true⟩

/-- Charity lookup for the C6 witness. -/
def distCharityOf : String → Charity :=
  fun cid => if cid = "chB" then distCharityB else distCharityA

/-- EIN lookup oracle for the C6 witness. -/
def distEinLookup : String → Option String :=
  fun e => if e = "12-3456789" then some "np1" else none

/-- Always-succeeding donation-creation oracle for the C6 witness. -/
def distCreate : String → Donation → Except String (Option String) :=
  fun _ d => Except.ok (some ("cd-" ++ d.id))

/-- Batch under distribution in the C6 witness. -/
def distBatch : DonationBatch :=
  ⟨"bat1", "u1", 0, 3, DonationBatchStatus.PROCESSING⟩

/-- Donations of the C6 witness batch: two to the resolvable charity, one
to the unresolvable one. -/
def distDons : List Donation :=
  [⟨"d1", "u1", some "bat1", none, "chA", "slugA", "Charity A", 1,
      DonationStatus.PENDING, none, none⟩,
    ⟨"d2", "u1", some "bat1", none, "chB", "slugB", "Charity B", 1,
      DonationStatus.PENDING, none, none⟩,
    ⟨"d3", "u1", some "bat1", none, "chA", "slugA", "Charity A", 1,
      DonationStatus.PENDING, none, none⟩]

/-- C6 witness: the theorem applied to a batch of 3 donations with 1
unresolvable charity, together with the spec's example outcome: 2 end
PROCESSING, 1 ends FAILED, and the batch row keeps its status. -/
theorem distribute_donations_partial_failure_witness :
    ((distribute_donations_to_charities distEinLookup distCreate distCharityOf
          distBatch distDons).1 = distBatch ∧
      (distribute_donations_to_charities distEinLookup distCreate distCharityOf
          distBatch distDons).2.1.length = distDons.length ∧
      (distribute_donations_to_charities distEinLookup distCreate distCharityOf
          distBatch distDons).2.2.length = distDons.length ∧
      (∀ d ∈ distDons,
        pyTruthyOptStr (resolveChangeNonprofitId distEinLookup
            (distCharityOf d.charityId)) = false →
          { d with status := DonationStatus.FAILED,
                   errorMessage :=
                     some "Charity not available for auto-donation" } ∈
            (distribute_donations_to_charities distEinLookup distCreate
              distCharityOf distBatch distDons).2.1) ∧
      (∀ d ∈ distDons, ∀ cid,
        resolveChangeNonprofitId distEinLookup (distCharityOf d.charityId) =
            some cid → cid ≠ "" →
          ∀ rid, distCreate cid d = Except.ok rid →
            { d with changeId := rid,
                     status := DonationStatus.PROCESSING } ∈
              (distribute_donations_to_charities distEinLookup distCreate
                distCharityOf distBatch distDons).2.1)) ∧
      (distribute_donations_to_charities distEinLookup distCreate distCharityOf
          distBatch distDons).2.1.map (fun d => d.status) =
        [DonationStatus.PROCESSING, DonationStatus.FAILED,
          DonationStatus.PROCESSING] ∧
      (distribute_donations_to_charities distEinLookup distCreate distCharityOf
          distBatch distDons).1.status = DonationBatchStatus.PROCESSING :=
  ⟨distribute_donations_partial_failure distEinLookup distCreate distCharityOf
      distBatch distDons,
    by decide, by decide⟩

/-- C2 witness: the amended theorem applied to the spec's example, a user
with cap 20.00 and current total 19.50 facing a 0.70 donation. -/
theorem process_transaction_respects_monthly_cap_witness :
    (process_transaction capState "u1" "t1" "d1").1.donations =
        capState.donations ∧
      (process_transaction capState "u1" "t1" "d1").1.users = capState.users ∧
      (process_transaction capState "u1" "t1" "d1").2.matched = false ∧
      ∃ t', (process_transaction capState "u1" "t1" "d1").1.transactions =
          setTransaction capState.transactions t' ∧
        t'.id = capTxn.id ∧ t'.status = TransactionStatus.SKIPPED :=
  process_transaction_respects_monthly_cap capState "u1" "t1" "d1" capTxn
    capUser 20
    (by simp +decide [capState, capTxn])
    (by simp +decide [capState, capUser])
    (by simp [capUser])
    (by norm_num)
    (by
      show (capUser.currentMonthTotal +
        calculate_donation_amount capTxn.amount capUser.donationMultiplier > 20)
      rw [show capTxn.amount = 43/10 from rfl,
        show capUser.donationMultiplier = 1 from rfl,
        calculate_donation_amount_430_1]
      norm_num [capUser])

end CounterCart
